import Mathlib

/-!
# ITSDecodingErrorCheck

A shallow embedding of `Modules/ITS/src/ITSDecodingErrorCheck.cxx`
(`ITSDecodingErrorCheck::check` and `ITSDecodingErrorCheck::beautify`) and
theorems about it.

Conventions of the embedding.

* A `TH1D` is the list of its regular bins: entry `k` of the list is ROOT bin
  `k + 1`. Bin contents are error counts, so they are integers.
* The member variables of the checker are the fields of `State`; every
  operation takes the state and returns the new one.
* The custom parameters, already split into arrays, and the two constants of
  `o2::itsmft::GBTLinkDecodingStat` are the fields of `Config`.
* A read of `vDecErrorLimits` past its end is a `Fault`.
* `TH1::Add` works in place: after `h->Add(LinkErrorBuffer, -1)` at line 75
  the histogram `h` holds the difference, and the flat scan (line 80), the
  vector loop (line 90) and the snapshot (line 99) all read `h` as that call
  left it.
* The map `moMap` is the list of its objects in the order of iteration.
* Log messages and the timer (`start`, `end`, `TIME`) are not part of the model.
-/

namespace ITSDecodingErrorCheck

/-! ## Histograms -/

/-- A one-dimensional histogram: the contents of its regular bins, entry `k`
being ROOT bin `k + 1`. -/
abbrev TH1D := List Int

/-- The method `TH1::GetNbinsX`. -/
def GetNbinsX (h : TH1D) : Nat := h.length

/-- The method `TH1::GetBinContent(iBin)` for a ROOT bin number; the regular bins are
`1 .. GetNbinsX`, the underflow and overflow bins are taken to be empty. -/
def GetBinContent (h : TH1D) (iBin : Nat) : Int :=
  if iBin = 0 then 0 else h.getD (iBin - 1) 0

/-- The method `TH1::GetMaximum`: the largest content of a regular bin (a ROOT histogram
has at least one bin). -/
def GetMaximum : TH1D → Int
  | [] => 0
  | b :: bs => bs.foldl max b

/-- What can go wrong in a call: a read of `vDecErrorLimits` past its end. -/
inductive Fault where
  | outOfRange
  deriving DecidableEq, Repr

/-- The call `h->Add(h1, c1)` of ROOT, `Bool_t TH1::Add(const TH1* h1, Double_t c1)`.
It works in place: the contents of `h` become `h[k] + c1 * h1[k]` and the call
returns `kTRUE`. ROOT refuses a null `h1` and an `h1` with another number of
bins: then `h` stays as it is and the call returns `kFALSE`. The result is the
pair of the contents of `h` after the call and the value returned. -/
def Add (h : TH1D) (h1 : Option TH1D) (c1 : Int) : TH1D × Bool :=
  match h1 with
  | none => (h, false)
  | some b =>
    if b.length = h.length then (List.zipWith (fun x y => x + c1 * y) h b, true)
    else (h, false)

/-! ## Quality -/

/-- The quality levels, in the order `Null < Good < Medium < Bad` of the
specification. -/
inductive QLevel where
  | Null
  | Good
  | Medium
  | Bad
  deriving DecidableEq, Repr

/-- Rank of a level in the order `Null < Good < Medium < Bad`. -/
def QLevel.rank : QLevel → Nat
  | .Null => 0
  | .Good => 1
  | .Medium => 2
  | .Bad => 3

/-- The worse of two levels. -/
def QLevel.worse (a b : QLevel) : QLevel := if a.rank < b.rank then b else a

/-- The only flag type the checker attaches, `FlagTypeFactory::Unknown()`. -/
inductive FlagType where
  | Unknown
  deriving DecidableEq, Repr

/-- Modelled from the spec: the framework class `Quality`, which the source
file only uses. A verdict is one of Null, Good, Medium, Bad and carries zero
or more free-text flags. -/
structure Quality where
  level : QLevel
  flags : List (FlagType × String)
  deriving DecidableEq, Repr

namespace Quality

/-- The constant `Quality::Null`. -/
def Null : Quality := ⟨.Null, []⟩
/-- The constant `Quality::Good`. -/
def Good : Quality := ⟨.Good, []⟩
/-- The constant `Quality::Medium`. -/
def Medium : Quality := ⟨.Medium, []⟩
/-- The constant `Quality::Bad`. -/
def Bad : Quality := ⟨.Bad, []⟩

/-- Modelled from the spec: `result.set(q)` of the framework class, which
downgrades the running verdict to the level of `q`; the flags already attached
stay (every flagged bin keeps its flag). -/
def set (r q : Quality) : Quality := ⟨q.level, r.flags⟩

/-- Modelled from the spec: `result.addFlag(flag, comment)` of the framework
class, which attaches one more flag after those already attached. -/
def addFlag (r : Quality) (flag : FlagType) (comment : String) : Quality :=
  ⟨r.level, r.flags ++ [(flag, comment)]⟩

end Quality

/-! ## Names -/

/-- Does the character list start with `pat`? -/
def startsWith : List Char → List Char → Bool
  | [], _ => true
  | _ :: _, [] => false
  | p :: ps, c :: cs => p == c && startsWith ps cs

/-- Does `pat` occur in the character list, that is
`s.find(pat) != std::string::npos`? -/
def containsChars (pat : List Char) : List Char → Bool
  | [] => pat.isEmpty
  | c :: cs => startsWith pat (c :: cs) || containsChars pat cs

/-- The condition `mo->getName() == "General/ChipErrorPlots"`. -/
def isChipErrorPlots (name : String) : Bool :=
  decide (name = "General/ChipErrorPlots")

/-- The condition
`((string)mo->getName()).find("General/LinkErrorPlots") != std::string::npos`. -/
def isLinkErrorPlots (name : String) : Bool :=
  containsChars "General/LinkErrorPlots".data name.data

/-! ## Objects, configuration, state -/

/-- A monitor object: its name and its object, `some h` when
`dynamic_cast<TH1D*>(mo->getObject())` succeeds and `none` when it yields
`nullptr`. -/
structure MonitorObject where
  name : String
  object : Option TH1D

/-- The custom parameters as arrays, and the constants of
`o2::itsmft::GBTLinkDecodingStat` the checker uses. -/
structure Config where
  /-- The constant `o2::itsmft::GBTLinkDecodingStat::NErrorsDefined`. -/
  NErrorsDefined : Nat
  /-- The table `statistics.ErrNames`. -/
  ErrNames : Nat → String
  /-- The array `convertToArray<int>` of the parameter `DecLinkErrorLimits`. -/
  vDecErrorLimits : List Int
  /-- The array `convertToArray<string>` of the parameter `plotWithTextMessage`. -/
  vPlotWithTextMessage : List String
  /-- The array `convertToArray<string>` of the parameter `textMessage`. -/
  vTextMessage : List String

/-- The member variables of `ITSDecodingErrorCheck` that the two functions
read or write. -/
structure State where
  nCycle : Nat
  nCycleLink : Nat
  doFlatCheck : Bool
  LinkErrorBuffer : Option TH1D
  vListErrorIdBad : List Nat
  vListErrorIdMedium : List Nat
  deriving DecidableEq, Repr

/-- The text `Form("BAD: ID = %d, %s", id, std::string(statistics.ErrNames[id]).c_str())`. -/
def badText (cfg : Config) (id : Nat) : String :=
  "BAD: ID = " ++ toString id ++ ", " ++ cfg.ErrNames id

/-! ## check -/

/-- The loop of flat-check mode over the ROOT bins in the list,
`for (iBin = 1; iBin <= h->GetNbinsX()-1; iBin++) if (h->GetBinContent(i) > 200) { result.set(Quality::Bad); break; }`.

Modelled from the spec: the identifier `i` of `h->GetBinContent(i)` has no
declaration in the source file; following the specification ("the raw current
series value at that index") it is the bin the loop is at, `iBin`. -/
def flatLoop (h : TH1D) (result : Quality) : List Nat → Quality
  | [] => result
  | iBin :: rest =>
    if GetBinContent h iBin > 200 then result.set Quality.Bad
    else flatLoop h result rest

/-- The loop of vector mode over the ROOT bins in the list,
`for (iBin = 1; iBin <= h->GetNbinsX(); iBin++)`, on the histogram `diff` whose
content it compares with the limits (`LinkErrorDiffh->GetBinContent(iBin)` in
the source: the difference, which after line 75 is the content of `h`). It
carries `vListErrorIdBad` and `result`. -/
def vectorLoop (cfg : Config) (diff : TH1D) :
    List Nat → List Nat → Quality → Except Fault (List Nat × Quality)
  | [], bad, result => .ok (bad, result)
  | iBin :: rest, bad, result =>
    match cfg.vDecErrorLimits[iBin - 1]? with
    | none => .error .outOfRange
    | some limit =>
      if limit < 0 then vectorLoop cfg diff rest bad result
      else if limit ≤ GetBinContent diff iBin then
        vectorLoop cfg diff rest (bad ++ [iBin - 1])
          ((result.set Quality.Bad).addFlag FlagType.Unknown (badText cfg (iBin - 1)))
      else vectorLoop cfg diff rest bad result

/-- The contents of `h` after source lines 70 to 75:
`if (nCycleLink == 0) LinkErrorBuffer = h->Clone();` and then
`h->Add(LinkErrorBuffer, -1)`, which turns `h` into the difference with the
snapshot (with its own clone on the first evaluation). -/
def linkDiff (st : State) (h : TH1D) : TH1D :=
  (Add h (if st.nCycleLink = 0 then some h else st.LinkErrorBuffer) (-1)).1

/-- The body of the `General/LinkErrorPlots` branch once the cast has
succeeded (source lines 70 to 99); `result` is `Quality::Good` on entry.
From line 75 on `h` is the histogram `hAfter` that `Add` left: the flat scan
reads it, the difference read by the vector loop (`LinkErrorDiffh` in the
source) is its content, and line 99 clones it into the snapshot. -/
def linkBlock (cfg : Config) (st : State) (h : TH1D) : Except Fault (State × Quality) :=
  let hAfter : TH1D := linkDiff st h
  if st.doFlatCheck then
    .ok ({ st with nCycleLink := st.nCycleLink + 1, LinkErrorBuffer := some hAfter },
         flatLoop hAfter Quality.Good (List.range' 1 (GetNbinsX hAfter - 1)))
  else
    match vectorLoop cfg hAfter (List.range' 1 (GetNbinsX hAfter))
            st.vListErrorIdBad Quality.Good with
    | .error e => .error e
    | .ok (bad, result) =>
      .ok ({ st with nCycleLink := st.nCycleLink + 1, LinkErrorBuffer := some hAfter,
                     vListErrorIdBad := bad }, result)

/-- One iteration of `for (auto& [moName, mo] : *moMap)`. -/
def checkEntry (cfg : Config) (st : State) (result : Quality) (mo : MonitorObject) :
    Except Fault (State × Quality) :=
  -- `if (mo->getName() == "General/ChipErrorPlots")`; the flag says `continue`
  let afterChip : Quality × Bool :=
    if isChipErrorPlots mo.name then
      match mo.object with
      | none => (Quality.Good, true)
      | some h =>
        (if GetMaximum h > 200 then Quality.Good.set Quality.Bad else Quality.Good, false)
    else (result, false)
  if afterChip.2 then .ok (st, afterChip.1)
  else if isLinkErrorPlots mo.name then
    match mo.object with
    | none => .ok (st, Quality.Good)
    | some h => linkBlock cfg st h
  else .ok (st, afterChip.1)

/-- The loop over the map, in the order of iteration. -/
def checkLoop (cfg : Config) : List MonitorObject → State → Quality →
    Except Fault (State × Quality)
  | [], st, result => .ok (st, result)
  | mo :: rest, st, result =>
    match checkEntry cfg st result mo with
    | .error e => .error e
    | .ok (st1, result1) => checkLoop cfg rest st1 result1

/-- The state after the first lines of `check`: the cycle counter of the timer
and the decision for flat-check mode (source lines 33 to 44). -/
def checkInit (cfg : Config) (st : State) : State :=
  { st with nCycle := if st.nCycle = 0 then 1 else st.nCycle,
            doFlatCheck :=
              if cfg.vDecErrorLimits.length ≠ cfg.NErrorsDefined then true
              else st.doFlatCheck }

/-- The function `ITSDecodingErrorCheck::check`; the map is given as the list of its
objects in the order of iteration. -/
def check (cfg : Config) (st : State) (moMap : List MonitorObject) :
    Except Fault (State × Quality) :=
  checkLoop cfg moMap (checkInit cfg st) Quality.Null

/-! ## beautify -/

/-- The text colours `beautify` uses; `unset` is the value of the local
`textColor` when no branch has assigned it. -/
inductive Color where
  | kGreen
  | kRedPlus2
  | kBlack
  | unset
  deriving DecidableEq, Repr

/-- A `TLatex` label: its text and colour (position, size and font are
presentation only). -/
structure TLatex where
  text : String
  color : Color
  deriving DecidableEq, Repr

/-- The text `Form("#bf{%s}", s)`. -/
def boldText (s : String) : String := "#bf\x7b" ++ s ++ "\x7d"

/-- The map `ShifterInfoText` as the list of assignments
`ShifterInfoText[vPlotWithTextMessage[i]] = vTextMessage[i]` in the order they
are made; no assignment is made when the two arrays differ in size. -/
def ShifterInfoText (cfg : Config) : List (String × String) :=
  if cfg.vTextMessage.length = cfg.vPlotWithTextMessage.length then
    List.zip cfg.vPlotWithTextMessage cfg.vTextMessage
  else []

/-- The value `ShifterInfoText[name]`: the text assigned last to the key, the
empty string for a key that was never assigned. -/
def lookupText (m : List (String × String)) (name : String) : String :=
  m.foldl (fun acc kv => if kv.1 = name then kv.2 else acc) ""

/-- Modelled from the spec: `checkResult == Quality::Good` and
`checkResult == Quality::Bad` of the framework class compare the verdicts,
which is the comparison of their levels. -/
def Quality.sameAs (a b : Quality) : Bool := decide (a.level = b.level)

/-- The function `ITSDecodingErrorCheck::beautify`: the new state and the labels added to
`h->GetListOfFunctions()`, in the order they are added. -/
def beautify (cfg : Config) (st : State) (mo : MonitorObject) (checkResult : Quality) :
    State × List TLatex :=
  let shifterText : String := lookupText (ShifterInfoText cfg) mo.name
  let tShifterInfo : TLatex := ⟨boldText shifterText, Color.kBlack⟩
  if isLinkErrorPlots mo.name || isChipErrorPlots mo.name then
    match mo.object with
    | none => (st, [])  -- `return;`
    | some _ =>
      let perBin : List TLatex :=
        if checkResult.sameAs Quality.Good then []
        else if checkResult.sameAs Quality.Bad then
          st.vListErrorIdBad.map (fun currentError =>
            (⟨badText cfg currentError, Color.kRedPlus2⟩ : TLatex))
        else []
      let status : String :=
        if checkResult.sameAs Quality.Good then "Quality::GOOD"
        else if checkResult.sameAs Quality.Bad then "Quality::BAD (call expert)"
        else ""
      let textColor : Color :=
        if checkResult.sameAs Quality.Good then Color.kGreen
        else if checkResult.sameAs Quality.Bad then Color.kRedPlus2
        else Color.unset
      let banner : TLatex := ⟨boldText status, textColor⟩
      ({ st with vListErrorIdBad := [], vListErrorIdMedium := [] },
        perBin ++ [banner] ++ (if shifterText ≠ "" then [tShifterInfo] else []))
  else ({ st with vListErrorIdBad := [], vListErrorIdMedium := [] }, [])

/-! ## Definitions used to state the theorems -/

/-- Is the name one of the two kinds `check` looks at? -/
def isRecognized (name : String) : Bool :=
  isChipErrorPlots name || isLinkErrorPlots name

/-- The ROOT bins of the list that vector mode flags on the difference
histogram `diff`: the limit is not negative and is at most the content. -/
def flaggedBins (cfg : Config) (diff : TH1D) (bins : List Nat) : List Nat :=
  bins.filter (fun iBin =>
    decide (0 ≤ cfg.vDecErrorLimits.getD (iBin - 1) 0 ∧
      cfg.vDecErrorLimits.getD (iBin - 1) 0 ≤ GetBinContent diff iBin))

/-- The indices `i` in `[0, K)` with `t[i] >= 0` and `t[i] <= c[i] - p[i]`, in
ascending order. -/
def badIndices (K : Nat) (t c p : List Int) : List Nat :=
  (List.range K).filter (fun i =>
    decide (0 ≤ t.getD i 0 ∧ t.getD i 0 ≤ c.getD i 0 - p.getD i 0))

/-- The level of a result, when there is one. -/
def levelOf (r : Except Fault (State × Quality)) : Option QLevel :=
  match r with
  | .ok sq => some sq.2.level
  | .error _ => none

/-- A configuration with three error kinds and the limits `[5, -1, 3]`. -/
def cfgExample : Config :=
  ⟨3, fun id => "Err" ++ toString id, [5, -1, 3], [], []⟩

/-- A state in vector mode, after one cycle, with the snapshot `[10, 10, 10]`
and no bad bin listed. -/
def stExample : State := ⟨1, 1, false, some [10, 10, 10], [], []⟩

/-- The state of a checker that has not yet been called. -/
def stInitial : State := ⟨0, 0, false, none, [], []⟩

/-- A configuration with three error kinds and the limits `[0, 5, 5]`, the
first of them zero. -/
def cfgZero : Config :=
  ⟨3, fun id => "Err" ++ toString id, [0, 5, 5], [], []⟩

/-- The aggregate series with a bin above the ceiling. -/
def chipHigh : MonitorObject := ⟨"General/ChipErrorPlots", some [201]⟩

/-- A link-error series with no counts. -/
def linkQuiet : MonitorObject := ⟨"General/LinkErrorPlots", some [0, 0, 0]⟩

/-- A link-error entry whose object is not a `TH1D`. -/
def linkNoCast : MonitorObject := ⟨"General/LinkErrorPlots", none⟩

/-- A second link-error series, with bins `[3, 3, 3]`. -/
def linkOther : MonitorObject := ⟨"General/LinkErrorPlotsB", some [3, 3, 3]⟩

/-- The state in vector mode after a cycle that listed bin 0 as bad. -/
def stAfterBad : State := ⟨1, 2, false, some [6, 40, 2], [0], []⟩

/-- A configuration with three error kinds whose limits are all negative. -/
def cfgNegative : Config :=
  ⟨3, fun id => "Err" ++ toString id, [-1, -1, -1], [], []⟩

/-- A configuration with three error kinds and only two limits, so that
`check` goes to flat-check mode. -/
def cfgShort : Config :=
  ⟨3, fun id => "Err" ++ toString id, [5, 5], [], []⟩

/-- A second link-error series, seen for the first time, with bins
`[9, 9, 9]`. -/
def linkNew : MonitorObject := ⟨"General/LinkErrorPlotsB", some [9, 9, 9]⟩

/-- The state a call with a malformed vector of limits leaves: flat-check mode
is set, the snapshot is `[0, 0, 0]`. -/
def stFlat : State := ⟨1, 1, true, some [0, 0, 0], [], []⟩

/-- The per-bin labels `beautify` attaches: one per entry of the bad-bin list
when the verdict is Bad, none otherwise. -/
def perBinLabels (cfg : Config) (bad : List Nat) (q : Quality) : List TLatex :=
  if q.sameAs Quality.Good then []
  else if q.sameAs Quality.Bad then
    bad.map (fun e => (⟨badText cfg e, Color.kRedPlus2⟩ : TLatex))
  else []

/-- The status banner `beautify` attaches for a verdict. -/
def statusBanner (q : Quality) : TLatex :=
  ⟨boldText (if q.sameAs Quality.Good then "Quality::GOOD"
      else if q.sameAs Quality.Bad then "Quality::BAD (call expert)" else ""),
    if q.sameAs Quality.Good then Color.kGreen
      else if q.sameAs Quality.Bad then Color.kRedPlus2 else Color.unset⟩

/-- The shifter note `beautify` attaches for a name: the text looked up in
`ShifterInfoText`, when it is not empty. -/
def shifterNote (cfg : Config) (name : String) : List TLatex :=
  if lookupText (ShifterInfoText cfg) name ≠ "" then
    [⟨boldText (lookupText (ShifterInfoText cfg) name), Color.kBlack⟩]
  else []

/-- A configuration with a shifter text for the link-error plot. -/
def cfgText : Config :=
  ⟨3, fun id => "Err" ++ toString id, [5, -1, 3],
    ["General/LinkErrorPlots"], ["call the expert"]⟩

/-- A configuration whose list of texts is shorter than its list of plots. -/
def cfgTextShort : Config :=
  ⟨3, fun id => "Err" ++ toString id, [5, -1, 3],
    ["General/LinkErrorPlots", "General/ChipErrorPlots"], ["call the expert"]⟩

/-- The verdict and the bad-bin records of a result: what an evaluation
yields, without the snapshot and the counters. -/
def outcome (r : Except Fault (State × Quality)) : Except Fault (List Nat × Quality) :=
  match r with
  | .ok sq => .ok (sq.1.vListErrorIdBad, sq.2)
  | .error e => .error e

/-! ## Lemmas on names -/

theorem chip_false_of_link (name : String) (h : isLinkErrorPlots name = true) :
    isChipErrorPlots name = false := by
  unfold isChipErrorPlots
  by_contra hc
  simp only [Bool.not_eq_false, decide_eq_true_eq] at hc
  subst hc
  revert h
  decide

/-! ## Lemmas on the two loops -/

theorem flaggedBins_cons (cfg : Config) (diff : TH1D) (b : Nat) (rest : List Nat) :
    flaggedBins cfg diff (b :: rest) =
      if 0 ≤ cfg.vDecErrorLimits.getD (b - 1) 0 ∧
          cfg.vDecErrorLimits.getD (b - 1) 0 ≤ GetBinContent diff b
      then b :: flaggedBins cfg diff rest else flaggedBins cfg diff rest := by
  unfold flaggedBins
  by_cases h : 0 ≤ cfg.vDecErrorLimits.getD (b - 1) 0 ∧
      cfg.vDecErrorLimits.getD (b - 1) 0 ≤ GetBinContent diff b
  · rw [List.filter_cons_of_pos (by simpa using h), if_pos h]
  · rw [List.filter_cons_of_neg (by simpa using h), if_neg h]

/-- Vector mode on bins that all lie inside `vDecErrorLimits`: the loop ends
normally, appends the flagged bins (as indices) to the list, attaches one flag
per flagged bin, and sets the level to Bad when a bin is flagged. -/
theorem vectorLoop_eq (cfg : Config) (diff : TH1D) :
    ∀ (bins bad : List Nat) (result : Quality),
      (∀ b ∈ bins, b - 1 < cfg.vDecErrorLimits.length) →
      vectorLoop cfg diff bins bad result =
        .ok (bad ++ (flaggedBins cfg diff bins).map (fun b => b - 1),
             ⟨if flaggedBins cfg diff bins = [] then result.level else QLevel.Bad,
              result.flags ++ (flaggedBins cfg diff bins).map
                (fun b => (FlagType.Unknown, badText cfg (b - 1)))⟩) := by
  intro bins
  induction bins with
  | nil =>
    intro bad result _
    simp [vectorLoop, flaggedBins]
  | cons b rest ih =>
    intro bad result hb
    have hlt : b - 1 < cfg.vDecErrorLimits.length := hb b (List.mem_cons_self _ _)
    have hrest : ∀ x ∈ rest, x - 1 < cfg.vDecErrorLimits.length :=
      fun x hx => hb x (List.mem_cons_of_mem _ hx)
    have hget : cfg.vDecErrorLimits.getD (b - 1) 0 = cfg.vDecErrorLimits[b - 1] :=
      List.getD_eq_getElem _ _ hlt
    rw [flaggedBins_cons, hget]
    simp only [vectorLoop, List.getElem?_eq_getElem hlt]
    by_cases hneg : cfg.vDecErrorLimits[b - 1] < 0
    · have h0 : ¬ (0 ≤ cfg.vDecErrorLimits[b - 1] ∧
          cfg.vDecErrorLimits[b - 1] ≤ GetBinContent diff b) := fun h => by omega
      rw [if_pos hneg, if_neg h0]
      exact ih bad result hrest
    · rw [if_neg hneg]
      by_cases hle : cfg.vDecErrorLimits[b - 1] ≤ GetBinContent diff b
      · have h1 : 0 ≤ cfg.vDecErrorLimits[b - 1] ∧
            cfg.vDecErrorLimits[b - 1] ≤ GetBinContent diff b := ⟨by omega, hle⟩
        rw [if_pos hle, if_pos h1, ih _ _ hrest]
        simp [Quality.set, Quality.addFlag, Quality.Bad]
      · have h0 : ¬ (0 ≤ cfg.vDecErrorLimits[b - 1] ∧
            cfg.vDecErrorLimits[b - 1] ≤ GetBinContent diff b) := fun h => hle h.2
        rw [if_neg hle, if_neg h0]
        exact ih bad result hrest

/-- The content of a regular bin of the difference histogram. -/
theorem GetBinContent_diff (c p : TH1D) (i : Nat) (hc : i < c.length) (hp : i < p.length) :
    GetBinContent (List.zipWith (fun x y => x + (-1) * y) c p) (1 + i) =
      c.getD i 0 - p.getD i 0 := by
  unfold GetBinContent
  have h1 : ¬ (1 + i = 0) := by omega
  have h2 : 1 + i - 1 = i := by omega
  rw [if_neg h1, h2]
  have hz : i < (List.zipWith (fun x y => x + (-1) * y) c p).length := by
    simp only [List.length_zipWith]
    omega
  rw [List.getD_eq_getElem _ _ hz, List.getD_eq_getElem _ _ hc, List.getD_eq_getElem _ _ hp,
    List.getElem_zipWith]
  omega

/-- On a series with `K` bins the bins that vector mode flags are the indices
of `badIndices`. -/
theorem flaggedBins_range (cfg : Config) (c p : TH1D) (K : Nat)
    (hc : c.length = K) (hp : p.length = K) :
    (flaggedBins cfg (List.zipWith (fun x y => x + (-1) * y) c p) (List.range' 1 K)).map
      (fun b => b - 1) = badIndices K cfg.vDecErrorLimits c p := by
  unfold flaggedBins badIndices
  rw [List.range'_eq_map_range, List.filter_map, List.map_map]
  have hid : ((fun b => b - 1) ∘ fun x => 1 + x) = (id : Nat → Nat) := by
    funext x
    simp
  rw [hid, List.map_id]
  apply List.filter_congr
  intro i hi
  have hiK : i < K := List.mem_range.mp hi
  simp only [Function.comp_apply]
  rw [GetBinContent_diff c p i (by omega) (by omega)]
  have h2 : 1 + i - 1 = i := by omega
  rw [h2]

/-! ## Lemmas on the link-error branch -/

/-- Line 75 keeps the number of bins of `h`. -/
theorem linkDiff_length (st : State) (h : TH1D) : (linkDiff st h).length = h.length := by
  unfold linkDiff Add
  split
  · rfl
  · split
    · rename_i hlen
      simp only [List.length_zipWith, hlen, min_self]
    · rfl

/-- After line 75 `h` holds the difference with the histogram it is compared
with, when that one has as many bins. -/
theorem linkDiff_of_buffer (st : State) (c p : TH1D)
    (hbuf : (if st.nCycleLink = 0 then some c else st.LinkErrorBuffer) = some p)
    (hp : p.length = c.length) :
    linkDiff st c = List.zipWith (fun x y => x + (-1) * y) c p := by
  unfold linkDiff
  rw [hbuf]
  simp only [Add, hp, if_true]

/-- The link-error branch in vector mode, on a series with `K` bins compared
with a `K`-bin histogram `p` (the snapshot, or the series itself on the first
evaluation). -/
theorem linkBlock_vector (cfg : Config) (st : State) (c p : TH1D)
    (hflat : st.doFlatCheck = false)
    (ht : cfg.vDecErrorLimits.length = cfg.NErrorsDefined)
    (hc : c.length = cfg.NErrorsDefined) (hp : p.length = cfg.NErrorsDefined)
    (hbuf : (if st.nCycleLink = 0 then some c else st.LinkErrorBuffer) = some p) :
    linkBlock cfg st c =
      .ok ({ st with nCycleLink := st.nCycleLink + 1,
                     LinkErrorBuffer := some (List.zipWith (fun x y => x + (-1) * y) c p),
                     vListErrorIdBad := st.vListErrorIdBad ++
                       badIndices cfg.NErrorsDefined cfg.vDecErrorLimits c p },
           ⟨if badIndices cfg.NErrorsDefined cfg.vDecErrorLimits c p = [] then QLevel.Good
              else QLevel.Bad,
            (badIndices cfg.NErrorsDefined cfg.vDecErrorLimits c p).map
              (fun i => (FlagType.Unknown, badText cfg i))⟩) := by
  have hd := linkDiff_of_buffer st c p hbuf (by rw [hp, hc])
  have hN : GetNbinsX (List.zipWith (fun x y => x + (-1) * y) c p) = cfg.NErrorsDefined := by
    rw [← hd]
    exact (linkDiff_length st c).trans hc
  have hbins : ∀ b ∈ List.range' 1 cfg.NErrorsDefined,
      b - 1 < cfg.vDecErrorLimits.length := by
    intro b hb
    rw [List.mem_range'_1] at hb
    omega
  have hfl := flaggedBins_range cfg c p cfg.NErrorsDefined hc hp
  have hflags : (flaggedBins cfg (List.zipWith (fun x y => x + (-1) * y) c p)
        (List.range' 1 cfg.NErrorsDefined)).map
        (fun b => (FlagType.Unknown, badText cfg (b - 1))) =
      (badIndices cfg.NErrorsDefined cfg.vDecErrorLimits c p).map
        (fun i => (FlagType.Unknown, badText cfg i)) := by
    rw [← hfl, List.map_map]
    rfl
  have hnil : (flaggedBins cfg (List.zipWith (fun x y => x + (-1) * y) c p)
        (List.range' 1 cfg.NErrorsDefined) = []) ↔
      (badIndices cfg.NErrorsDefined cfg.vDecErrorLimits c p = []) := by
    rw [← hfl, List.map_eq_nil_iff]
  unfold linkBlock
  simp only [hd, hN, hflat, Bool.false_eq_true, if_false]
  rw [vectorLoop_eq cfg _ _ _ _ hbins]
  simp only [hfl, hflags, hnil, Quality.Good, List.nil_append]

/-- A castable entry whose name contains `General/LinkErrorPlots` is handled by
the link-error branch, whatever the running verdict. -/
theorem checkEntry_link (cfg : Config) (st : State) (result : Quality) (name : String)
    (h : TH1D) (hname : isLinkErrorPlots name = true) :
    checkEntry cfg st result ⟨name, some h⟩ = linkBlock cfg st h := by
  simp [checkEntry, chip_false_of_link name hname, hname]

/-- A batch of one entry. -/
theorem check_singleton (cfg : Config) (st : State) (mo : MonitorObject) :
    check cfg st [mo] = checkEntry cfg (checkInit cfg st) Quality.Null mo := by
  unfold check
  simp only [checkLoop]
  cases checkEntry cfg (checkInit cfg st) Quality.Null mo with
  | error e => rfl
  | ok sr => rfl

/-- When the limits have length `K`, the first lines of `check` leave the mode
as it is. -/
theorem checkInit_doFlatCheck (cfg : Config) (st : State)
    (ht : cfg.vDecErrorLimits.length = cfg.NErrorsDefined) :
    (checkInit cfg st).doFlatCheck = st.doFlatCheck := by
  simp [checkInit, ht]

/-! ## C1 -/

/-- C1. In vector mode (flat check off, limits of length `K`), `check` on one
link-error series with `K` bins `c`, snapshot `p` and an empty bad-bin list
leaves as bad-bin list exactly the indices `i < K` with `t[i] >= 0` and
`t[i] <= c[i] - p[i]`, in ascending order; the verdict is Bad when that list
is not empty and Good when it is. -/
theorem C1_vector_mode_bad_bins (cfg : Config) (st : State) (name : String) (c p : TH1D)
    (ht : cfg.vDecErrorLimits.length = cfg.NErrorsDefined)
    (hflat : st.doFlatCheck = false)
    (hname : isLinkErrorPlots name = true)
    (hc : c.length = cfg.NErrorsDefined) (hp : p.length = cfg.NErrorsDefined)
    (hcyc : st.nCycleLink ≠ 0) (hbuf : st.LinkErrorBuffer = some p)
    (hbad : st.vListErrorIdBad = []) :
    (∃ st1 q, check cfg st [⟨name, some c⟩] = .ok (st1, q) ∧
      st1.vListErrorIdBad = badIndices cfg.NErrorsDefined cfg.vDecErrorLimits c p ∧
      q.level = (if st1.vListErrorIdBad = [] then QLevel.Good else QLevel.Bad)) ∧
    List.Sorted (fun a b => a < b) (badIndices cfg.NErrorsDefined cfg.vDecErrorLimits c p) ∧
    ∀ i, i ∈ badIndices cfg.NErrorsDefined cfg.vDecErrorLimits c p ↔
      i < cfg.NErrorsDefined ∧ 0 ≤ cfg.vDecErrorLimits.getD i 0 ∧
        cfg.vDecErrorLimits.getD i 0 ≤ c.getD i 0 - p.getD i 0 := by
  refine ⟨?_, ?_, ?_⟩
  · have hflat1 : (checkInit cfg st).doFlatCheck = false := by
      rw [checkInit_doFlatCheck cfg st ht, hflat]
    have hbuf1 : (if (checkInit cfg st).nCycleLink = 0 then some c
        else (checkInit cfg st).LinkErrorBuffer) = some p := by
      have h1 : (checkInit cfg st).nCycleLink = st.nCycleLink := rfl
      have h2 : (checkInit cfg st).LinkErrorBuffer = st.LinkErrorBuffer := rfl
      rw [h1, h2, if_neg hcyc, hbuf]
    have hbad1 : (checkInit cfg st).vListErrorIdBad = [] := hbad
    rw [check_singleton, checkEntry_link cfg _ _ name c hname,
      linkBlock_vector cfg _ c p hflat1 ht hc hp hbuf1]
    refine ⟨_, _, rfl, ?_, ?_⟩
    · simp [hbad1]
    · simp [hbad1]
  · exact List.Pairwise.filter _ (List.pairwise_lt_range _)
  · intro i
    simp [badIndices, List.mem_filter, List.mem_range]

/-- C1 at the limits `[5, -1, 3]`, snapshot `[10, 10, 10]` and bins
`[16, 50, 12]`: the verdict is Bad and the bad-bin list is `[0]`. -/
theorem C1_vector_mode_bad_bins_witness :
    (∃ st1 q, check cfgExample stExample [⟨"General/LinkErrorPlots", some [16, 50, 12]⟩] =
        .ok (st1, q) ∧
      st1.vListErrorIdBad = badIndices 3 [5, -1, 3] [16, 50, 12] [10, 10, 10] ∧
      q.level = (if st1.vListErrorIdBad = [] then QLevel.Good else QLevel.Bad)) ∧
    badIndices 3 [5, -1, 3] [16, 50, 12] [10, 10, 10] = [0] ∧
    check cfgExample stExample [⟨"General/LinkErrorPlots", some [16, 50, 12]⟩] =
      .ok (⟨1, 2, false, some [6, 40, 2], [0], []⟩,
           ⟨QLevel.Bad, [(FlagType.Unknown, "BAD: ID = 0, Err0")]⟩) :=
  ⟨(C1_vector_mode_bad_bins cfgExample stExample "General/LinkErrorPlots" [16, 50, 12]
      [10, 10, 10] rfl rfl (by decide) rfl rfl (by decide) rfl rfl).1,
    by decide, by rfl⟩

/-! ## C2 -/

/-- Compared with itself a series has no bad index unless a limit is zero. -/
theorem badIndices_self (K : Nat) (t c : List Int) (ht : t.length = K)
    (hnz : ∀ x ∈ t, x ≠ 0) : badIndices K t c c = [] := by
  unfold badIndices
  rw [List.filter_eq_nil_iff]
  intro i hi
  have hiK : i < t.length := by
    rw [ht]
    exact List.mem_range.mp hi
  have hmem : t.getD i 0 ∈ t := by
    rw [List.getD_eq_getElem _ _ hiK]
    exact List.getElem_mem hiK
  have hne := hnz _ hmem
  simp only [decide_eq_true_eq, not_and]
  intro h0 h1
  omega

/-- C2, counterexample. On the first call of a fresh checker a limit equal to
zero flags its bin: the delta is zero and the test is `limit <= delta`. The
verdict is Bad and bin 0 is listed. -/
theorem C2_bootstrap_counterexample :
    check cfgZero stInitial [⟨"General/LinkErrorPlots", some [7, 0, 0]⟩] =
        .ok (⟨1, 1, false, some [0, 0, 0], [0], []⟩,
             ⟨QLevel.Bad, [(FlagType.Unknown, "BAD: ID = 0, Err0")]⟩) ∧
    cfgZero.vDecErrorLimits.length = cfgZero.NErrorsDefined ∧
    stInitial.nCycleLink = 0 ∧ stInitial.LinkErrorBuffer = none :=
  ⟨by rfl, by rfl, by rfl, by rfl⟩

/-! ## Lemmas on the loop over the map -/

/-- The loop over a concatenation is the loop over the first part followed by
the loop over the second. -/
theorem checkLoop_append (cfg : Config) :
    ∀ (a b : List MonitorObject) (st : State) (result : Quality),
      checkLoop cfg (a ++ b) st result =
        (checkLoop cfg a st result).bind (fun sr => checkLoop cfg b sr.1 sr.2) := by
  intro a
  induction a with
  | nil =>
    intro b st result
    rfl
  | cons mo rest ih =>
    intro b st result
    simp only [List.cons_append, checkLoop]
    cases checkEntry cfg st result mo with
    | error e => rfl
    | ok sr => exact ih b sr.1 sr.2

/-- An entry with an unrecognized name changes nothing. -/
theorem checkEntry_unrecognized (cfg : Config) (st : State) (result : Quality)
    (mo : MonitorObject) (h : isRecognized mo.name = false) :
    checkEntry cfg st result mo = .ok (st, result) := by
  unfold isRecognized at h
  rw [Bool.or_eq_false_iff] at h
  simp [checkEntry, h.1, h.2]

/-- Entries with unrecognized names change nothing. -/
theorem checkLoop_unrecognized (cfg : Config) :
    ∀ (l : List MonitorObject) (st : State) (result : Quality),
      (∀ mo ∈ l, isRecognized mo.name = false) →
      checkLoop cfg l st result = .ok (st, result) := by
  intro l
  induction l with
  | nil =>
    intro st result _
    rfl
  | cons mo rest ih =>
    intro st result h
    simp only [checkLoop, checkEntry_unrecognized cfg st result mo (h mo (List.mem_cons_self _ _))]
    exact ih st result (fun x hx => h x (List.mem_cons_of_mem _ hx))

/-- A recognized entry overwrites the running verdict: what it yields does not
depend on the verdict it finds. -/
theorem checkEntry_recognized (cfg : Config) (st : State) (result result1 : Quality)
    (mo : MonitorObject) (h : isRecognized mo.name = true) :
    checkEntry cfg st result mo = checkEntry cfg st result1 mo := by
  unfold isRecognized at h
  rw [Bool.or_eq_true] at h
  rcases h with h | h
  · cases hobj : mo.object <;> simp [checkEntry, h, hobj]
  · cases hobj : mo.object <;> simp [checkEntry, h, hobj, chip_false_of_link mo.name h]

/-- A recognized entry that cannot be cast leaves the state as it is and sets
the running verdict to Good. -/
theorem checkEntry_no_cast (cfg : Config) (st : State) (result : Quality) (name : String)
    (h : isRecognized name = true) :
    checkEntry cfg st result ⟨name, none⟩ = .ok (st, Quality.Good) := by
  unfold isRecognized at h
  rw [Bool.or_eq_true] at h
  rcases h with h | h
  · simp [checkEntry, h]
  · simp [checkEntry, h, chip_false_of_link name h]

/-! ## C3 -/

/-- C3, counterexample. The aggregate series above its ceiling is Bad on its
own, yet followed by a quiet link-error series the batch is Good; with the two
entries in the other order the batch is Bad. The result is neither the worst
verdict nor independent of the order. -/
theorem C3_worst_verdict_counterexample :
    levelOf (check cfgExample stInitial [chipHigh]) = some QLevel.Bad ∧
    levelOf (check cfgExample stInitial [linkQuiet]) = some QLevel.Good ∧
    QLevel.worse QLevel.Bad QLevel.Good = QLevel.Bad ∧
    levelOf (check cfgExample stInitial [chipHigh, linkQuiet]) = some QLevel.Good ∧
    levelOf (check cfgExample stInitial [linkQuiet, chipHigh]) = some QLevel.Bad :=
  ⟨by rfl, by rfl, by rfl, by rfl, by rfl⟩

/-- C3, amended. The verdict `check` returns is the verdict of the last
recognized entry in the order of iteration, evaluated in the state the entries
before it leave: every recognized entry first overwrites the running verdict,
and the unrecognized entries after it change nothing. -/
theorem C3_last_recognized_entry (cfg : Config) (st : State)
    (pre post : List MonitorObject) (mo : MonitorObject)
    (hrec : isRecognized mo.name = true)
    (hpost : ∀ x ∈ post, isRecognized x.name = false) :
    check cfg st (pre ++ mo :: post) =
      (check cfg st pre).bind (fun sr => checkEntry cfg sr.1 Quality.Null mo) := by
  unfold check
  rw [checkLoop_append]
  congr 1
  funext sr
  simp only [checkLoop]
  rw [checkEntry_recognized cfg sr.1 sr.2 Quality.Null mo hrec]
  cases checkEntry cfg sr.1 Quality.Null mo with
  | error e => rfl
  | ok sr1 => exact checkLoop_unrecognized cfg post sr1.1 sr1.2 hpost

/-- C3 (amended) on the batch of the aggregate series above its ceiling
followed by a quiet link-error series: the result is that of the link-error
series, Good. -/
theorem C3_last_recognized_entry_witness :
    check cfgExample stInitial ([chipHigh] ++ linkQuiet :: []) =
      (check cfgExample stInitial [chipHigh]).bind
        (fun sr => checkEntry cfgExample sr.1 Quality.Null linkQuiet) ∧
    check cfgExample stInitial ([chipHigh] ++ linkQuiet :: []) =
      .ok (⟨1, 1, false, some [0, 0, 0], [], []⟩, Quality.Good) :=
  ⟨C3_last_recognized_entry cfgExample stInitial [chipHigh] [] linkQuiet (by decide)
      (by simp), by rfl⟩

/-! ## C8 -/

/-- C8, counterexample. The aggregate series above its ceiling makes the batch
Bad; a link-error entry that cannot be cast, visited after it, turns the
result into Good. -/
theorem C8_no_cast_counterexample :
    check cfgExample stInitial [chipHigh] =
      .ok (⟨1, 0, false, none, [], []⟩, Quality.Bad) ∧
    check cfgExample stInitial [chipHigh, linkNoCast] =
      .ok (⟨1, 0, false, none, [], []⟩, Quality.Good) :=
  ⟨by rfl, by rfl⟩

/-- C8, amended. A recognized entry whose object cannot be cast leaves the
snapshot, the counters and the bad-bin list as the entries before it left
them, and the entries after it are evaluated from that state; it sets the
running verdict to Good without flags, whatever the verdict was. -/
theorem C8_no_cast_entry (cfg : Config) (st : State) (pre post : List MonitorObject)
    (name : String) (hrec : isRecognized name = true) :
    check cfg st (pre ++ ⟨name, none⟩ :: post) =
      (check cfg st pre).bind (fun sr => checkLoop cfg post sr.1 Quality.Good) := by
  unfold check
  rw [checkLoop_append]
  congr 1
  funext sr
  simp only [checkLoop, checkEntry_no_cast cfg sr.1 sr.2 name hrec]

/-- C8 (amended) on a quiet link-error series followed by a link-error entry
that cannot be cast: state and bad-bin list are those the first entry left. -/
theorem C8_no_cast_entry_witness :
    check cfgExample stInitial ([linkQuiet] ++ ⟨"General/LinkErrorPlots", none⟩ :: []) =
      (check cfgExample stInitial [linkQuiet]).bind
        (fun sr => checkLoop cfgExample [] sr.1 Quality.Good) ∧
    check cfgExample stInitial ([linkQuiet] ++ ⟨"General/LinkErrorPlots", none⟩ :: []) =
      .ok (⟨1, 1, false, some [0, 0, 0], [], []⟩, Quality.Good) :=
  ⟨C8_no_cast_entry cfgExample stInitial [linkQuiet] [] "General/LinkErrorPlots" (by decide),
    by rfl⟩

/-! ## Lemmas on the state the link-error branch leaves -/

/-- What the link-error branch does to the state when it ends normally: the
mode is kept, the snapshot is the histogram as line 75 left it, and the
counter of link-error evaluations grows by one. -/
theorem linkBlock_state (cfg : Config) (st st1 : State) (h : TH1D) (q : Quality)
    (hok : linkBlock cfg st h = .ok (st1, q)) :
    st1.doFlatCheck = st.doFlatCheck ∧ st1.LinkErrorBuffer = some (linkDiff st h) ∧
      st1.nCycleLink = st.nCycleLink + 1 := by
  unfold linkBlock at hok
  cases hf : st.doFlatCheck with
  | true =>
    simp only [hf, if_true, Except.ok.injEq, Prod.mk.injEq] at hok
    rw [← hok.1]
    exact ⟨rfl, rfl, rfl⟩
  | false =>
    simp only [hf, Bool.false_eq_true, if_false] at hok
    cases hv : vectorLoop cfg (linkDiff st h) (List.range' 1 (GetNbinsX (linkDiff st h)))
        st.vListErrorIdBad Quality.Good with
    | error e => simp [hv] at hok
    | ok br =>
      simp only [hv, Except.ok.injEq, Prod.mk.injEq] at hok
      rw [← hok.1]
      exact ⟨rfl, rfl, rfl⟩

/-- After line 75 `h` holds the difference with the snapshot, when there is a
snapshot with as many bins. -/
theorem linkDiff_eq (st : State) (c p : TH1D) (hcyc : st.nCycleLink ≠ 0)
    (hbuf : st.LinkErrorBuffer = some p) (hp : p.length = c.length) :
    linkDiff st c = List.zipWith (fun x y => x + (-1) * y) c p := by
  apply linkDiff_of_buffer st c p _ hp
  rw [if_neg hcyc, hbuf]

/-- On the first link-error evaluation line 75 leaves `h` with all bins
zero. -/
theorem linkDiff_first (st : State) (c : TH1D) (hcyc : st.nCycleLink = 0) :
    linkDiff st c = List.replicate c.length 0 := by
  rw [linkDiff_of_buffer st c c (by rw [if_pos hcyc]) rfl]
  apply List.ext_getElem
  · simp
  · intro n h1 h2
    simp

/-- The link-error branch ends normally in flat-check mode, and in vector mode
when the series has no more bins than there are limits. -/
theorem linkBlock_ok (cfg : Config) (st : State) (c : TH1D)
    (hmode : st.doFlatCheck = true ∨ c.length ≤ cfg.vDecErrorLimits.length) :
    ∃ st1 q, linkBlock cfg st c = .ok (st1, q) := by
  unfold linkBlock
  cases hf : st.doFlatCheck with
  | true => exact ⟨_, _, if_pos rfl⟩
  | false =>
    have hlen : c.length ≤ cfg.vDecErrorLimits.length := by
      rcases hmode with h | h
      · rw [hf] at h
        exact absurd h (by decide)
      · exact h
    have hbins : ∀ b ∈ List.range' 1 (GetNbinsX (linkDiff st c)),
        b - 1 < cfg.vDecErrorLimits.length := by
      intro b hb
      rw [List.mem_range'_1] at hb
      unfold GetNbinsX at hb
      rw [linkDiff_length] at hb
      omega
    simp only [Bool.false_eq_true, if_false, vectorLoop_eq cfg _ _ _ _ hbins]
    exact ⟨_, _, rfl⟩

/-- An entry that is not a castable link-error series leaves the state as it
is. -/
theorem checkEntry_not_link (cfg : Config) (st : State) (result : Quality)
    (mo : MonitorObject) (h : isLinkErrorPlots mo.name = false ∨ mo.object = none) :
    ∃ r, checkEntry cfg st result mo = .ok (st, r) := by
  unfold checkEntry
  rcases h with h | h
  · cases hchip : isChipErrorPlots mo.name <;> cases hobj : mo.object <;>
      simp [h]
  · cases hchip : isChipErrorPlots mo.name <;> cases hlink : isLinkErrorPlots mo.name <;>
      simp [h]

/-- Entries none of which is a castable link-error series leave the state as
it is. -/
theorem checkLoop_not_link (cfg : Config) :
    ∀ (l : List MonitorObject) (st : State) (result : Quality),
      (∀ x ∈ l, isLinkErrorPlots x.name = false ∨ x.object = none) →
      ∃ r, checkLoop cfg l st result = .ok (st, r) := by
  intro l
  induction l with
  | nil =>
    intro st result _
    exact ⟨result, rfl⟩
  | cons mo rest ih =>
    intro st result h
    obtain ⟨r, hr⟩ := checkEntry_not_link cfg st result mo (h mo (List.mem_cons_self _ _))
    obtain ⟨r1, hr1⟩ := ih st r (fun x hx => h x (List.mem_cons_of_mem _ hx))
    exact ⟨r1, by simp only [checkLoop, hr, hr1]⟩

/-! ## C4 -/

/-- C4, counterexample. Two link-error series in one batch of a fresh checker:
after the call the snapshot is `[3, 3, 3]`, which comes from the second series
and is not the bins `[1, 1, 1]` of the first. In the next cycle the first
series, now `[7, 7, 7]`, is compared with that snapshot: the difference is
`[4, 4, 4]` and only bin 2 is flagged, while against its own previous bins
bins 0 and 2 pass their limits. -/
theorem C4_snapshot_counterexample :
    check cfgExample stInitial [⟨"General/LinkErrorPlots", some [1, 1, 1]⟩, linkOther] =
      .ok (⟨1, 2, false, some [3, 3, 3], [2], []⟩,
           ⟨QLevel.Bad, [(FlagType.Unknown, "BAD: ID = 2, Err2")]⟩) ∧
    linkDiff ⟨1, 2, false, some [3, 3, 3], [], []⟩ [7, 7, 7] = [4, 4, 4] ∧
    check cfgExample ⟨1, 2, false, some [3, 3, 3], [], []⟩
        [⟨"General/LinkErrorPlots", some [7, 7, 7]⟩] =
      .ok (⟨1, 3, false, some [4, 4, 4], [2], []⟩,
           ⟨QLevel.Bad, [(FlagType.Unknown, "BAD: ID = 2, Err2")]⟩) ∧
    badIndices 3 [5, -1, 3] [7, 7, 7] [1, 1, 1] = [0, 2] :=
  ⟨by rfl, by rfl, by rfl, by decide⟩

/-- C4, amended. There is one snapshot, `LinkErrorBuffer`, and the commit is
unconditional: when `check` evaluates a link-error series, in vector or
flat-check mode and whatever the verdict, it overwrites the snapshot with the
clone of `h` taken at line 99, that is `h` as line 75 left it, with the number
of bins of the series, and counts one more link-error evaluation. Entries that
are not castable link-error series leave the snapshot alone, in this call and
in the next. So the link-error series evaluated next, with bins `c1`, is
compared through the difference of `c1` and that snapshot. -/
theorem C4_snapshot_after_evaluation (cfg : Config) (st s0 : State) (r0 : Quality)
    (pre post : List MonitorObject) (name : String) (c : TH1D)
    (hname : isLinkErrorPlots name = true)
    (hpre : check cfg st pre = .ok (s0, r0))
    (hmode : s0.doFlatCheck = true ∨ c.length ≤ cfg.vDecErrorLimits.length)
    (hpost : ∀ x ∈ post, isLinkErrorPlots x.name = false ∨ x.object = none) :
    ∃ st1 q, check cfg st (pre ++ ⟨name, some c⟩ :: post) = .ok (st1, q) ∧
      st1.LinkErrorBuffer = some (linkDiff s0 c) ∧
      (linkDiff s0 c).length = c.length ∧
      st1.nCycleLink = s0.nCycleLink + 1 ∧
      ∀ (cfg1 : Config) (pre1 : List MonitorObject) (c1 : TH1D),
        (∀ x ∈ pre1, isLinkErrorPlots x.name = false ∨ x.object = none) →
        c1.length = c.length →
        ∃ r1, check cfg1 st1 pre1 = .ok (checkInit cfg1 st1, r1) ∧
          linkDiff (checkInit cfg1 st1) c1 =
            List.zipWith (fun x y => x + (-1) * y) c1 (linkDiff s0 c) ∧
          ∀ i, i < c.length →
            GetBinContent (linkDiff (checkInit cfg1 st1) c1) (1 + i) =
              c1.getD i 0 - (linkDiff s0 c).getD i 0 := by
  obtain ⟨st1, q, hlb⟩ := linkBlock_ok cfg s0 c hmode
  obtain ⟨_, hbuf1, hcyc1⟩ := linkBlock_state cfg s0 st1 c q hlb
  obtain ⟨q1, hq1⟩ := checkLoop_not_link cfg post st1 q hpost
  have hcyc1' : st1.nCycleLink ≠ 0 := by omega
  have hlen0 := linkDiff_length s0 c
  refine ⟨st1, q1, ?_, hbuf1, hlen0, hcyc1, ?_⟩
  · unfold check at hpre ⊢
    rw [checkLoop_append, hpre]
    simp only [Except.bind, checkLoop, checkEntry_link cfg s0 r0 name c hname, hlb, hq1]
  · intro cfg1 pre1 c1 hpre1 hlen
    obtain ⟨r1, hr1⟩ := checkLoop_not_link cfg1 pre1 (checkInit cfg1 st1) Quality.Null hpre1
    have hd : linkDiff (checkInit cfg1 st1) c1 =
        List.zipWith (fun x y => x + (-1) * y) c1 (linkDiff s0 c) :=
      linkDiff_eq (checkInit cfg1 st1) c1 (linkDiff s0 c) hcyc1' hbuf1
        (by rw [hlen0, hlen])
    refine ⟨r1, hr1, hd, ?_⟩
    intro i hi
    rw [hd]
    exact GetBinContent_diff c1 (linkDiff s0 c) i (by omega) (by omega)

/-- C4 (amended) on a state with the snapshot `[10, 10, 10]` and the batch of
a link-error series `[16, 50, 12]` followed by the aggregate series: the
snapshot after the call is the clone taken at line 99, `[6, 40, 2]`. -/
theorem C4_snapshot_after_evaluation_witness :
    (∃ st1 q, check cfgExample stExample
        ([] ++ ⟨"General/LinkErrorPlots", some [16, 50, 12]⟩ :: [chipHigh]) = .ok (st1, q) ∧
      st1.LinkErrorBuffer = some (linkDiff (checkInit cfgExample stExample) [16, 50, 12]) ∧
      (linkDiff (checkInit cfgExample stExample) [16, 50, 12]).length =
        [(16 : Int), 50, 12].length ∧
      st1.nCycleLink = (checkInit cfgExample stExample).nCycleLink + 1 ∧
      ∀ (cfg1 : Config) (pre1 : List MonitorObject) (c1 : TH1D),
        (∀ x ∈ pre1, isLinkErrorPlots x.name = false ∨ x.object = none) →
        c1.length = [(16 : Int), 50, 12].length →
        ∃ r1, check cfg1 st1 pre1 = .ok (checkInit cfg1 st1, r1) ∧
          linkDiff (checkInit cfg1 st1) c1 =
            List.zipWith (fun x y => x + (-1) * y) c1
              (linkDiff (checkInit cfgExample stExample) [16, 50, 12]) ∧
          ∀ i, i < [(16 : Int), 50, 12].length →
            GetBinContent (linkDiff (checkInit cfg1 st1) c1) (1 + i) =
              c1.getD i 0 -
                (linkDiff (checkInit cfgExample stExample) [16, 50, 12]).getD i 0) ∧
    linkDiff (checkInit cfgExample stExample) [16, 50, 12] = [6, 40, 2] ∧
    check cfgExample stExample
        ([] ++ ⟨"General/LinkErrorPlots", some [16, 50, 12]⟩ :: [chipHigh]) =
      .ok (⟨1, 2, false, some [6, 40, 2], [0], []⟩, Quality.Bad) :=
  ⟨C4_snapshot_after_evaluation cfgExample stExample (checkInit cfgExample stExample)
      Quality.Null [] [chipHigh] "General/LinkErrorPlots" [16, 50, 12] (by decide) rfl
      (Or.inr (by decide)) (by decide),
    by rfl, by rfl⟩

/-! ## Lemmas on reads of the limits -/

/-- The link-error branch makes no out-of-range read in flat-check mode, nor in
vector mode on a series with no more bins than there are limits. -/
theorem linkBlock_in_range (cfg : Config) (st : State) (h : TH1D)
    (hmode : st.doFlatCheck = true ∨ h.length ≤ cfg.vDecErrorLimits.length) :
    linkBlock cfg st h ≠ .error .outOfRange := by
  obtain ⟨st1, q, hok⟩ := linkBlock_ok cfg st h hmode
  rw [hok]
  exact fun hne => Except.noConfusion hne

/-- An entry never changes the mode. -/
theorem checkEntry_doFlatCheck (cfg : Config) (st st1 : State) (result r1 : Quality)
    (mo : MonitorObject) (hok : checkEntry cfg st result mo = .ok (st1, r1)) :
    st1.doFlatCheck = st.doFlatCheck := by
  by_cases hl : isLinkErrorPlots mo.name = true
  · cases hobj : mo.object with
    | none =>
      obtain ⟨r, hr⟩ := checkEntry_not_link cfg st result mo (Or.inr hobj)
      rw [hr] at hok
      simp only [Except.ok.injEq, Prod.mk.injEq] at hok
      rw [hok.1]
    | some h =>
      have hmo : mo = ⟨mo.name, some h⟩ := by
        cases mo
        simp_all
      rw [hmo, checkEntry_link cfg st result mo.name h hl] at hok
      exact (linkBlock_state cfg st st1 h r1 hok).1
  · obtain ⟨r, hr⟩ := checkEntry_not_link cfg st result mo
      (Or.inl (by simpa using hl))
    rw [hr] at hok
    simp only [Except.ok.injEq, Prod.mk.injEq] at hok
    rw [hok.1]

/-- An entry makes no out-of-range read in flat-check mode, nor in vector mode
when it is a series with no more bins than there are limits. -/
theorem checkEntry_in_range (cfg : Config) (st : State) (result : Quality)
    (mo : MonitorObject)
    (hmode : st.doFlatCheck = true ∨
      ∀ h, isLinkErrorPlots mo.name = true → mo.object = some h →
        h.length ≤ cfg.vDecErrorLimits.length) :
    checkEntry cfg st result mo ≠ .error .outOfRange := by
  by_cases hl : isLinkErrorPlots mo.name = true
  · cases hobj : mo.object with
    | none =>
      obtain ⟨r, hr⟩ := checkEntry_not_link cfg st result mo (Or.inr hobj)
      simp [hr]
    | some h =>
      have hmo : mo = ⟨mo.name, some h⟩ := by
        cases mo
        simp_all
      rw [hmo, checkEntry_link cfg st result mo.name h hl]
      apply linkBlock_in_range
      rcases hmode with hm | hm
      · exact Or.inl hm
      · exact Or.inr (hm h hl hobj)
  · obtain ⟨r, hr⟩ := checkEntry_not_link cfg st result mo
      (Or.inl (by simpa using hl))
    simp [hr]

/-- The loop over the map makes no out-of-range read in flat-check mode, nor in
vector mode when no link-error series has more bins than there are limits. -/
theorem checkLoop_in_range (cfg : Config) :
    ∀ (l : List MonitorObject) (st : State) (result : Quality),
      (st.doFlatCheck = true ∨
        ∀ mo ∈ l, ∀ h, isLinkErrorPlots mo.name = true → mo.object = some h →
          h.length ≤ cfg.vDecErrorLimits.length) →
      checkLoop cfg l st result ≠ .error .outOfRange := by
  intro l
  induction l with
  | nil =>
    intro st result _
    simp [checkLoop]
  | cons mo rest ih =>
    intro st result hmode
    have hentry : checkEntry cfg st result mo ≠ .error .outOfRange := by
      apply checkEntry_in_range
      rcases hmode with hm | hm
      · exact Or.inl hm
      · exact Or.inr (hm mo (List.mem_cons_self _ _))
    simp only [checkLoop]
    cases hce : checkEntry cfg st result mo with
    | error e =>
      rw [hce] at hentry
      exact hentry
    | ok sr =>
      obtain ⟨s1, q1⟩ := sr
      have hflat := checkEntry_doFlatCheck cfg st s1 result q1 mo hce
      apply ih
      rcases hmode with hm | hm
      · exact Or.inl (by rw [hflat, hm])
      · exact Or.inr (fun x hx => hm x (List.mem_cons_of_mem _ hx))

/-- In flat-check mode the link-error branch reads nothing of the
configuration. -/
theorem linkBlock_flat_config (cfg cfg1 : Config) (st : State) (h : TH1D)
    (hf : st.doFlatCheck = true) : linkBlock cfg st h = linkBlock cfg1 st h := by
  unfold linkBlock
  simp only [hf, if_true]

/-- In flat-check mode an entry reads nothing of the configuration. -/
theorem checkEntry_flat_config (cfg cfg1 : Config) (st : State) (result : Quality)
    (mo : MonitorObject) (hf : st.doFlatCheck = true) :
    checkEntry cfg st result mo = checkEntry cfg1 st result mo := by
  unfold checkEntry
  cases hobj : mo.object with
  | none => rfl
  | some h => simp only [linkBlock_flat_config cfg cfg1 st h hf]

/-- In flat-check mode the loop over the map reads nothing of the
configuration. -/
theorem checkLoop_flat_config (cfg cfg1 : Config) :
    ∀ (l : List MonitorObject) (st : State) (result : Quality),
      st.doFlatCheck = true →
      checkLoop cfg l st result = checkLoop cfg1 l st result := by
  intro l
  induction l with
  | nil =>
    intro st result _
    rfl
  | cons mo rest ih =>
    intro st result hf
    simp only [checkLoop, checkEntry_flat_config cfg cfg1 st result mo hf]
    cases hce : checkEntry cfg1 st result mo with
    | error e => rfl
    | ok sr =>
      obtain ⟨s1, q1⟩ := sr
      have hflat := checkEntry_doFlatCheck cfg1 st s1 result q1 mo hce
      exact ih s1 q1 (by rw [hflat, hf])

/-! ## C5 -/

/-- C5. When the number of limits differs from `K`, `check` is in flat-check
mode and reads no limit: the result is the same for every other vector whose
length differs from `K`, and no read is out of range whatever the series are.
And in every call whose link-error series all have exactly `K` bins, no read
`vDecErrorLimits[iBin - 1]` is out of range. -/
theorem C5_limit_reads_in_range (cfg : Config) (st : State) (moMap : List MonitorObject) :
    (cfg.vDecErrorLimits.length ≠ cfg.NErrorsDefined →
      (checkInit cfg st).doFlatCheck = true ∧
      check cfg st moMap ≠ .error .outOfRange ∧
      ∀ t1 : List Int, t1.length ≠ cfg.NErrorsDefined →
        check { cfg with vDecErrorLimits := t1 } st moMap = check cfg st moMap) ∧
    ((∀ mo ∈ moMap, ∀ h, isLinkErrorPlots mo.name = true → mo.object = some h →
        h.length = cfg.NErrorsDefined) →
      check cfg st moMap ≠ .error .outOfRange) := by
  constructor
  · intro hlen
    have hflat : (checkInit cfg st).doFlatCheck = true := by
      simp [checkInit, hlen]
    refine ⟨hflat, ?_, ?_⟩
    · exact checkLoop_in_range cfg moMap _ _ (Or.inl hflat)
    · intro t1 ht1
      have hinit : checkInit { cfg with vDecErrorLimits := t1 } st = checkInit cfg st := by
        simp [checkInit, hlen, ht1]
      unfold check
      rw [hinit]
      exact checkLoop_flat_config _ cfg moMap _ _ hflat
  · intro hbins
    by_cases hlen : cfg.vDecErrorLimits.length = cfg.NErrorsDefined
    · apply checkLoop_in_range
      right
      intro mo hmo h hl hobj
      rw [hbins mo hmo h hl hobj, hlen]
    · apply checkLoop_in_range
      left
      simp [checkInit, hlen]

/-- C5 on a batch of one link-error series with three bins: with two limits
for three error kinds the call is in flat-check mode, and with three limits no
read is out of range. -/
theorem C5_limit_reads_in_range_witness :
    ((checkInit cfgShort stInitial).doFlatCheck = true ∧
      check cfgShort stInitial [linkQuiet] ≠ .error .outOfRange ∧
      ∀ t1 : List Int, t1.length ≠ cfgShort.NErrorsDefined →
        check { cfgShort with vDecErrorLimits := t1 } stInitial [linkQuiet] =
          check cfgShort stInitial [linkQuiet]) ∧
    check cfgExample stInitial [linkQuiet] ≠ .error .outOfRange :=
  ⟨(C5_limit_reads_in_range cfgShort stInitial [linkQuiet]).1 (by decide),
    (C5_limit_reads_in_range cfgExample stInitial [linkQuiet]).2 (by
      intro mo hmo h _ hobj
      simp only [List.mem_singleton] at hmo
      subst hmo
      simp only [linkQuiet, Option.some.injEq] at hobj
      subst hobj
      rfl)⟩

/-! ## C6 -/

/-- The flat scan sets Bad when a bin of the list is above 200 and otherwise
leaves the verdict as it is. -/
theorem flatLoop_eq (h : TH1D) (result : Quality) :
    ∀ bins : List Nat,
      flatLoop h result bins =
        if bins.any (fun b => decide (200 < GetBinContent h b)) then result.set Quality.Bad
        else result := by
  intro bins
  induction bins with
  | nil => rfl
  | cons b rest ih =>
    simp only [flatLoop, List.any_cons]
    by_cases hb : 200 < GetBinContent h b
    · have hb1 : GetBinContent h b > 200 := hb
      simp [hb1]
    · have hb1 : ¬ GetBinContent h b > 200 := hb
      rw [if_neg hb1, ih]
      simp [hb]

/-- The bins the flat scan looks at are the indices up to the last but one. -/
theorem flat_scan_bins (c : TH1D) :
    (List.range' 1 (GetNbinsX c - 1)).any (fun b => decide (200 < GetBinContent c b)) = true ↔
      ∃ i, i + 2 ≤ c.length ∧ 200 < c.getD i 0 := by
  rw [List.any_eq_true]
  unfold GetNbinsX
  constructor
  · rintro ⟨b, hb, hgt⟩
    rw [List.mem_range'_1] at hb
    refine ⟨b - 1, by omega, ?_⟩
    have hb0 : ¬ (b = 0) := by omega
    simpa [GetBinContent, hb0] using hgt
  · rintro ⟨i, hi, hgt⟩
    refine ⟨i + 1, ?_, ?_⟩
    · rw [List.mem_range'_1]
      omega
    · simpa [GetBinContent] using hgt

/-- The link-error branch in flat-check mode: the flat scan reads `h` as line
75 left it, and that histogram becomes the snapshot. -/
theorem linkBlock_flat (cfg : Config) (st : State) (c : TH1D)
    (hf : st.doFlatCheck = true) :
    linkBlock cfg st c =
      .ok ({ st with nCycleLink := st.nCycleLink + 1,
                     LinkErrorBuffer := some (linkDiff st c) },
           flatLoop (linkDiff st c) Quality.Good
             (List.range' 1 (GetNbinsX (linkDiff st c) - 1))) := by
  unfold linkBlock
  simp only [hf, if_true]

/-- What `check` returns in flat-check mode for one link-error series: Bad
exactly when `h` as line 75 left it, the difference with the snapshot, is above
200 at some index up to the last but one. -/
theorem check_flat_verdict (cfg : Config) (st : State) (name : String) (c : TH1D)
    (hflat : st.doFlatCheck = true ∨ cfg.vDecErrorLimits.length ≠ cfg.NErrorsDefined)
    (hname : isLinkErrorPlots name = true) :
    ∃ st1 q, check cfg st [⟨name, some c⟩] = .ok (st1, q) ∧
      (q.level = QLevel.Bad ↔
        ∃ i, i + 2 ≤ c.length ∧ 200 < (linkDiff (checkInit cfg st) c).getD i 0) ∧
      (q.level = QLevel.Good ↔
        ¬ ∃ i, i + 2 ≤ c.length ∧ 200 < (linkDiff (checkInit cfg st) c).getD i 0) := by
  have hflat1 : (checkInit cfg st).doFlatCheck = true := by
    rcases hflat with h | h
    · simp [checkInit, h]
    · simp [checkInit, h]
  rw [check_singleton, checkEntry_link cfg _ _ name c hname,
    linkBlock_flat cfg _ c hflat1, flatLoop_eq]
  have hscan := flat_scan_bins (linkDiff (checkInit cfg st) c)
  rw [linkDiff_length] at hscan
  refine ⟨_, _, rfl, ?_, ?_⟩
  · rw [← hscan]
    cases (List.range' 1 (GetNbinsX (linkDiff (checkInit cfg st) c) - 1)).any
        (fun b => decide (200 < GetBinContent (linkDiff (checkInit cfg st) c) b)) <;>
      simp [Quality.set, Quality.Good, Quality.Bad]
  · rw [← hscan]
    cases (List.range' 1 (GetNbinsX (linkDiff (checkInit cfg st) c) - 1)).any
        (fun b => decide (200 < GetBinContent (linkDiff (checkInit cfg st) c) b)) <;>
      simp [Quality.set, Quality.Good, Quality.Bad]

/-- C6, the code at the failing inputs. In flat-check mode (two limits for
three error kinds) the flat scan reads `h` after the in-place `Add` of line 75,
that is the difference with the snapshot, not the current counts. On a fresh
checker the series `[500, 0, 0]` is compared with its own clone and is Good.
Over three calls with the series `[10, 0, 0]`, `[400, 0, 0]`, `[500, 0, 0]` the
third is Good although bin 0 holds 500, because the snapshot is `[400, 0, 0]`;
with the snapshot `[0, 0, 0]` the same series is Bad. The last bin is not
looked at: `[5, 5, 500]` against `[0, 0, 0]` is Good. -/
theorem C6_flat_scan_reads_difference :
    check cfgShort stInitial [⟨"General/LinkErrorPlots", some [500, 0, 0]⟩] =
      .ok (⟨1, 1, true, some [0, 0, 0], [], []⟩, Quality.Good) ∧
    check cfgShort stInitial [⟨"General/LinkErrorPlots", some [10, 0, 0]⟩] =
      .ok (⟨1, 1, true, some [0, 0, 0], [], []⟩, Quality.Good) ∧
    check cfgShort ⟨1, 1, true, some [0, 0, 0], [], []⟩
        [⟨"General/LinkErrorPlots", some [400, 0, 0]⟩] =
      .ok (⟨1, 2, true, some [400, 0, 0], [], []⟩, Quality.Bad) ∧
    check cfgShort ⟨1, 2, true, some [400, 0, 0], [], []⟩
        [⟨"General/LinkErrorPlots", some [500, 0, 0]⟩] =
      .ok (⟨1, 3, true, some [100, 0, 0], [], []⟩, Quality.Good) ∧
    check cfgShort ⟨1, 1, true, some [0, 0, 0], [], []⟩
        [⟨"General/LinkErrorPlots", some [500, 0, 0]⟩] =
      .ok (⟨1, 2, true, some [500, 0, 0], [], []⟩, Quality.Bad) ∧
    check cfgShort ⟨1, 1, true, some [0, 0, 0], [], []⟩
        [⟨"General/LinkErrorPlots", some [5, 5, 500]⟩] =
      .ok (⟨1, 2, true, some [5, 5, 500], [], []⟩, Quality.Good) :=
  ⟨by rfl, by rfl, by rfl, by rfl, by rfl, by rfl⟩

/-! ## C2, amended -/

/-- The difference of a histogram with itself has all bins zero. -/
theorem diff_self (c : TH1D) :
    List.zipWith (fun x y => x + (-1) * y) c c = List.replicate c.length 0 := by
  apply List.ext_getElem
  · simp
  · intro n h1 h2
    simp

/-- A histogram with all bins zero has content zero everywhere. -/
theorem GetBinContent_zeros (n b : Nat) : GetBinContent (List.replicate n 0) b = 0 := by
  unfold GetBinContent
  split
  · rfl
  · rw [List.getD_eq_getElem?_getD, List.getElem?_replicate]
    split <;> rfl

/-- The flat scan of a histogram with all bins zero leaves the verdict as it
is. -/
theorem flatLoop_zeros (n : Nat) (result : Quality) (bins : List Nat) :
    flatLoop (List.replicate n 0) result bins = result := by
  induction bins with
  | nil => rfl
  | cons b rest ih =>
    simp only [flatLoop, GetBinContent_zeros]
    rw [if_neg (by decide), ih]

/-- C2, amended. On the first link-error evaluation of the checker
(`nCycleLink = 0`, no snapshot yet), in flat-check mode, and in vector mode
with `K` limits none of which is zero on a series with `K` bins, `check` flags
no bin: the bad-bin list is unchanged, no flag is attached and the verdict is
Good. The series is compared with its own clone, so the histogram scanned and
stored has all bins zero. -/
theorem C2_bootstrap_first_evaluation (cfg : Config) (st : State) (name : String) (c : TH1D)
    (hname : isLinkErrorPlots name = true)
    (hcyc : st.nCycleLink = 0)
    (hmode : (st.doFlatCheck = true ∨ cfg.vDecErrorLimits.length ≠ cfg.NErrorsDefined) ∨
      (st.doFlatCheck = false ∧ cfg.vDecErrorLimits.length = cfg.NErrorsDefined ∧
        c.length = cfg.NErrorsDefined ∧ ∀ x ∈ cfg.vDecErrorLimits, x ≠ 0)) :
    check cfg st [⟨name, some c⟩] =
      .ok ({ checkInit cfg st with nCycleLink := 1,
                                   LinkErrorBuffer := some (List.replicate c.length 0) },
           Quality.Good) := by
  have hcyc1 : (checkInit cfg st).nCycleLink = 0 := hcyc
  have hbuf1 : (if (checkInit cfg st).nCycleLink = 0 then some c
      else (checkInit cfg st).LinkErrorBuffer) = some c := by
    rw [if_pos hcyc1]
  rw [check_singleton, checkEntry_link cfg _ _ name c hname]
  rcases hmode with hflat | ⟨hflat, ht, hc, hnz⟩
  · have hflat1 : (checkInit cfg st).doFlatCheck = true := by
      rcases hflat with h | h
      · simp [checkInit, h]
      · simp [checkInit, h]
    rw [linkBlock_flat cfg _ c hflat1, linkDiff_of_buffer _ c c hbuf1 rfl, diff_self,
      flatLoop_zeros]
    simp [hcyc1]
  · have hflat1 : (checkInit cfg st).doFlatCheck = false := by
      rw [checkInit_doFlatCheck cfg st ht, hflat]
    rw [linkBlock_vector cfg _ c c hflat1 ht hc hc hbuf1, badIndices_self _ _ c ht hnz,
      diff_self]
    simp [hcyc1, Quality.Good]

/-- C2 (amended) on a fresh checker with first bins `[16, 50, 12]`, in vector
mode at the limits `[5, -1, 3]`. -/
theorem C2_bootstrap_first_evaluation_witness :
    check cfgExample stInitial [⟨"General/LinkErrorPlots", some [16, 50, 12]⟩] =
      .ok (⟨1, 1, false, some [0, 0, 0], [], []⟩, Quality.Good) :=
  C2_bootstrap_first_evaluation cfgExample stInitial "General/LinkErrorPlots" [16, 50, 12]
    (by decide) rfl (Or.inr ⟨rfl, rfl, rfl, by decide⟩)

/-! ## C7 -/

/-- Whenever `beautify` gets past the cast, or the name is not recognized, it
ends by clearing the two lists. -/
theorem beautify_clears (cfg : Config) (st : State) (mo : MonitorObject) (q : Quality)
    (h : isRecognized mo.name = false ∨ mo.object ≠ none) :
    (beautify cfg st mo q).1.vListErrorIdBad = [] ∧
      (beautify cfg st mo q).1.vListErrorIdMedium = [] := by
  unfold beautify
  rcases h with h | h
  · unfold isRecognized at h
    rw [Bool.or_eq_false_iff] at h
    simp [h.1, h.2]
  · cases hobj : mo.object with
    | none => exact absurd hobj h
    | some hist =>
      by_cases hn : (isLinkErrorPlots mo.name || isChipErrorPlots mo.name) = true
      · simp [hn]
      · simp [hn]

/-- C7, the code at the failing input. For a link-error object that cannot be
cast, `beautify` returns before the two `clear()` calls: the bad-bin list
`[0]` is still there after the call, and the next `beautify` call renders a
label for it. -/
theorem C7_beautify_no_cast_keeps_list :
    beautify cfgExample stAfterBad linkNoCast Quality.Bad = (stAfterBad, []) ∧
    (beautify cfgExample stAfterBad linkNoCast Quality.Bad).1.vListErrorIdBad = [0] ∧
    (beautify cfgExample (beautify cfgExample stAfterBad linkNoCast Quality.Bad).1
        ⟨"General/LinkErrorPlots", some [16, 50, 12]⟩ Quality.Bad).2 =
      [⟨"BAD: ID = 0, Err0", Color.kRedPlus2⟩,
       ⟨boldText "Quality::BAD (call expert)", Color.kRedPlus2⟩] :=
  ⟨by rfl, by rfl, by rfl⟩

/-! ## C9 -/

/-- With only negative limits no index is bad. -/
theorem badIndices_negative (K : Nat) (t c p : List Int) (ht : t.length = K)
    (hneg : ∀ x ∈ t, x < 0) : badIndices K t c p = [] := by
  unfold badIndices
  rw [List.filter_eq_nil_iff]
  intro i hi
  have hiK : i < t.length := by
    rw [ht]
    exact List.mem_range.mp hi
  have hmem : t.getD i 0 ∈ t := by
    rw [List.getD_eq_getElem _ _ hiK]
    exact List.getElem_mem hiK
  have hlt := hneg _ hmem
  simp only [decide_eq_true_eq, not_and]
  intro h0
  omega

/-- C9. In vector mode with `K` limits that are all negative, for every
snapshot `a` and bins `b` with `b[i] >= a[i]` for all `i`, `check` on that
link-error series returns Good, appends nothing to the bad-bin list and
attaches no flag. (The proof does not use the relation between `a` and
`b`.) -/
theorem C9_negative_limits_good (cfg : Config) (st : State) (name : String) (a b : TH1D)
    (ht : cfg.vDecErrorLimits.length = cfg.NErrorsDefined)
    (hneg : ∀ x ∈ cfg.vDecErrorLimits, x < 0)
    (hflat : st.doFlatCheck = false)
    (hname : isLinkErrorPlots name = true)
    (ha : a.length = cfg.NErrorsDefined) (hb : b.length = cfg.NErrorsDefined)
    (hcyc : st.nCycleLink ≠ 0) (hbuf : st.LinkErrorBuffer = some a)
    (_hmono : ∀ i, i < cfg.NErrorsDefined → a.getD i 0 ≤ b.getD i 0) :
    ∃ st1 q, check cfg st [⟨name, some b⟩] = .ok (st1, q) ∧
      q.level = QLevel.Good ∧ q.flags = [] ∧ st1.vListErrorIdBad = st.vListErrorIdBad := by
  have hflat1 : (checkInit cfg st).doFlatCheck = false := by
    rw [checkInit_doFlatCheck cfg st ht, hflat]
  have hbuf1 : (if (checkInit cfg st).nCycleLink = 0 then some b
      else (checkInit cfg st).LinkErrorBuffer) = some a := by
    have h1 : (checkInit cfg st).nCycleLink = st.nCycleLink := rfl
    have h2 : (checkInit cfg st).LinkErrorBuffer = st.LinkErrorBuffer := rfl
    rw [h1, h2, if_neg hcyc, hbuf]
  rw [check_singleton, checkEntry_link cfg _ _ name b hname,
    linkBlock_vector cfg _ b a hflat1 ht hb ha hbuf1,
    badIndices_negative _ _ b a ht hneg]
  refine ⟨_, _, rfl, ?_, ?_, ?_⟩
  · simp
  · simp
  · simp [checkInit]

/-- C9 at the limits `[-1, -1, -1]`, snapshot `[10, 10, 10]` and bins
`[16, 50, 12]`. -/
theorem C9_negative_limits_good_witness :
    (∃ st1 q, check cfgNegative stExample [⟨"General/LinkErrorPlots", some [16, 50, 12]⟩] =
        .ok (st1, q) ∧
      q.level = QLevel.Good ∧ q.flags = [] ∧
      st1.vListErrorIdBad = stExample.vListErrorIdBad) ∧
    check cfgNegative stExample [⟨"General/LinkErrorPlots", some [16, 50, 12]⟩] =
      .ok (⟨1, 2, false, some [6, 40, 2], [], []⟩, Quality.Good) :=
  ⟨C9_negative_limits_good cfgNegative stExample "General/LinkErrorPlots" [10, 10, 10]
      [16, 50, 12] rfl (by decide) rfl (by decide) rfl rfl (by decide) rfl (by decide),
    by rfl⟩

/-! ## C10 -/

/-- C10. In vector mode with `K` limits, a bin `i` whose count is smaller than
in the snapshot is not flagged: the indices appended to the bad-bin list and
the flags attached are those of `badIndices`, `i` is not among them, and a Bad
verdict comes from another index. -/
theorem C10_counter_regression (cfg : Config) (st : State) (name : String) (c p : TH1D)
    (i : Nat)
    (ht : cfg.vDecErrorLimits.length = cfg.NErrorsDefined)
    (hflat : st.doFlatCheck = false)
    (hname : isLinkErrorPlots name = true)
    (hc : c.length = cfg.NErrorsDefined) (hp : p.length = cfg.NErrorsDefined)
    (hcyc : st.nCycleLink ≠ 0) (hbuf : st.LinkErrorBuffer = some p)
    (hreg : c.getD i 0 < p.getD i 0) :
    ∃ st1 q appended, check cfg st [⟨name, some c⟩] = .ok (st1, q) ∧
      appended = badIndices cfg.NErrorsDefined cfg.vDecErrorLimits c p ∧
      st1.vListErrorIdBad = st.vListErrorIdBad ++ appended ∧
      q.flags = appended.map (fun j => (FlagType.Unknown, badText cfg j)) ∧
      i ∉ appended ∧
      (q.level = QLevel.Bad → ∃ j, j ≠ i ∧ j ∈ appended) ∧
      (appended = [] → q.level = QLevel.Good) := by
  have hflat1 : (checkInit cfg st).doFlatCheck = false := by
    rw [checkInit_doFlatCheck cfg st ht, hflat]
  have hbuf1 : (if (checkInit cfg st).nCycleLink = 0 then some c
      else (checkInit cfg st).LinkErrorBuffer) = some p := by
    have h1 : (checkInit cfg st).nCycleLink = st.nCycleLink := rfl
    have h2 : (checkInit cfg st).LinkErrorBuffer = st.LinkErrorBuffer := rfl
    rw [h1, h2, if_neg hcyc, hbuf]
  have hnot : i ∉ badIndices cfg.NErrorsDefined cfg.vDecErrorLimits c p := by
    unfold badIndices
    rw [List.mem_filter]
    rintro ⟨_, hi⟩
    simp only [decide_eq_true_eq] at hi
    omega
  rw [check_singleton, checkEntry_link cfg _ _ name c hname,
    linkBlock_vector cfg _ c p hflat1 ht hc hp hbuf1]
  refine ⟨_, _, _, rfl, rfl, ?_, rfl, hnot, ?_, ?_⟩
  · simp [checkInit]
  · intro hbadlevel
    cases hl : badIndices cfg.NErrorsDefined cfg.vDecErrorLimits c p with
    | nil => simp [hl] at hbadlevel
    | cons j rest =>
      refine ⟨j, ?_, List.mem_cons_self _ _⟩
      intro hji
      apply hnot
      rw [hl, hji]
      exact List.mem_cons_self _ _
  · intro hnil
    simp [hnil]

/-- C10 at the limits `[5, -1, 3]`, snapshot `[10, 10, 10]` and bins
`[16, 50, 2]`: bin 2 went down by 8 and is not flagged, bin 0 is. -/
theorem C10_counter_regression_witness :
    (∃ st1 q appended,
      check cfgExample stExample [⟨"General/LinkErrorPlots", some [16, 50, 2]⟩] =
        .ok (st1, q) ∧
      appended = badIndices cfgExample.NErrorsDefined cfgExample.vDecErrorLimits [16, 50, 2]
        [10, 10, 10] ∧
      st1.vListErrorIdBad = stExample.vListErrorIdBad ++ appended ∧
      q.flags = appended.map (fun j => (FlagType.Unknown, badText cfgExample j)) ∧
      2 ∉ appended ∧
      (q.level = QLevel.Bad → ∃ j, j ≠ 2 ∧ j ∈ appended) ∧
      (appended = [] → q.level = QLevel.Good)) ∧
    check cfgExample stExample [⟨"General/LinkErrorPlots", some [16, 50, 2]⟩] =
      .ok (⟨1, 2, false, some [6, 40, -8], [0], []⟩,
           ⟨QLevel.Bad, [(FlagType.Unknown, "BAD: ID = 0, Err0")]⟩) :=
  ⟨C10_counter_regression cfgExample stExample "General/LinkErrorPlots" [16, 50, 2]
      [10, 10, 10] 2 rfl rfl (by decide) rfl rfl (by decide) rfl (by decide),
    by rfl⟩

/-! ## C11 -/

/-- C11, counterexample. A link-error series seen for the first time, after
another link-error series in the same batch, is not a bootstrap cycle: it is
compared with the snapshot the other series left, `[0, 0, 0]`, so its bins
`[9, 9, 9]` flag bins 0 and 2 and the verdict is Bad. Alone on a fresh checker
the same series is a bootstrap cycle and Good. -/
theorem C11_cross_series_counterexample :
    check cfgExample stInitial [linkQuiet, linkNew] =
      .ok (⟨1, 2, false, some [9, 9, 9], [0, 2], []⟩,
           ⟨QLevel.Bad, [(FlagType.Unknown, "BAD: ID = 0, Err0"),
                         (FlagType.Unknown, "BAD: ID = 2, Err2")]⟩) ∧
    check cfgExample stInitial [linkQuiet] =
      .ok (⟨1, 1, false, some [0, 0, 0], [], []⟩, Quality.Good) ∧
    check cfgExample stInitial [linkNew] =
      .ok (⟨1, 1, false, some [0, 0, 0], [], []⟩, Quality.Good) :=
  ⟨by rfl, by rfl, by rfl⟩

/-- C11, amended. There is one snapshot and one counter of link-error
evaluations, shared by all link-error series. Once a link-error series `A` has
been evaluated, the link-error series evaluated next, whatever its name, is
not a bootstrap cycle and is compared with the snapshot that the evaluation of
`A` left (the clone of line 99), through the difference of its bins and that
snapshot. -/
theorem C11_shared_snapshot (cfg : Config) (st s0 : State) (r0 : Quality)
    (pre : List MonitorObject) (nameA nameB : String) (a b : TH1D)
    (hA : isLinkErrorPlots nameA = true) (hB : isLinkErrorPlots nameB = true)
    (hpre : check cfg st pre = .ok (s0, r0))
    (hmode : s0.doFlatCheck = true ∨ a.length ≤ cfg.vDecErrorLimits.length)
    (hlen : b.length = a.length) :
    ∃ s1 q1, check cfg st (pre ++ [⟨nameA, some a⟩]) = .ok (s1, q1) ∧
      s1.LinkErrorBuffer = some (linkDiff s0 a) ∧ s1.nCycleLink ≠ 0 ∧
      linkDiff s1 b = List.zipWith (fun x y => x + (-1) * y) b (linkDiff s0 a) ∧
      check cfg st (pre ++ [⟨nameA, some a⟩, ⟨nameB, some b⟩]) = linkBlock cfg s1 b := by
  obtain ⟨s1, q1, hlb⟩ := linkBlock_ok cfg s0 a hmode
  obtain ⟨_, hbuf1, hcyc1⟩ := linkBlock_state cfg s0 s1 a q1 hlb
  have hcyc1' : s1.nCycleLink ≠ 0 := by omega
  refine ⟨s1, q1, ?_, hbuf1, hcyc1',
    linkDiff_eq s1 b (linkDiff s0 a) hcyc1' hbuf1 (by rw [linkDiff_length, hlen]), ?_⟩
  · unfold check at hpre ⊢
    rw [checkLoop_append, hpre]
    simp only [Except.bind, checkLoop, checkEntry_link cfg s0 r0 nameA a hA, hlb]
  · unfold check at hpre ⊢
    rw [checkLoop_append, hpre]
    simp only [Except.bind, checkLoop, checkEntry_link cfg s0 r0 nameA a hA, hlb,
      checkEntry_link cfg s1 q1 nameB b hB]
    cases linkBlock cfg s1 b with
    | error e => rfl
    | ok sr => rfl

/-- C11 (amended) on the state with the snapshot `[10, 10, 10]`: the series
`[16, 50, 12]` leaves the snapshot `[6, 40, 2]`, and the series of another name
that follows, `[20, 60, 14]`, is compared with it: the difference is
`[14, 20, 12]` and bins 0 and 2 are flagged. -/
theorem C11_shared_snapshot_witness :
    (∃ s1 q1, check cfgExample stExample
        ([] ++ [⟨"General/LinkErrorPlots", some [16, 50, 12]⟩]) = .ok (s1, q1) ∧
      s1.LinkErrorBuffer = some (linkDiff (checkInit cfgExample stExample) [16, 50, 12]) ∧
      s1.nCycleLink ≠ 0 ∧
      linkDiff s1 [20, 60, 14] =
        List.zipWith (fun x y => x + (-1) * y) [20, 60, 14]
          (linkDiff (checkInit cfgExample stExample) [16, 50, 12]) ∧
      check cfgExample stExample
          ([] ++ [⟨"General/LinkErrorPlots", some [16, 50, 12]⟩,
            ⟨"General/LinkErrorPlotsB", some [20, 60, 14]⟩]) =
        linkBlock cfgExample s1 [20, 60, 14]) ∧
    check cfgExample stExample
        [⟨"General/LinkErrorPlots", some [16, 50, 12]⟩,
          ⟨"General/LinkErrorPlotsB", some [20, 60, 14]⟩] =
      .ok (⟨1, 3, false, some [14, 20, 12], [0, 0, 2], []⟩,
           ⟨QLevel.Bad, [(FlagType.Unknown, "BAD: ID = 0, Err0"),
                         (FlagType.Unknown, "BAD: ID = 2, Err2")]⟩) :=
  ⟨C11_shared_snapshot cfgExample stExample (checkInit cfgExample stExample) Quality.Null []
      "General/LinkErrorPlots" "General/LinkErrorPlotsB" [16, 50, 12] [20, 60, 14]
      (by decide) (by decide) rfl (Or.inr (by decide)) rfl,
    by rfl⟩

/-! ## C12 -/

/-- The loop over the map never changes the mode. -/
theorem checkLoop_doFlatCheck (cfg : Config) :
    ∀ (l : List MonitorObject) (st st1 : State) (result q : Quality),
      checkLoop cfg l st result = .ok (st1, q) → st1.doFlatCheck = st.doFlatCheck := by
  intro l
  induction l with
  | nil =>
    intro st st1 result q hok
    simp only [checkLoop, Except.ok.injEq, Prod.mk.injEq] at hok
    rw [hok.1]
  | cons mo rest ih =>
    intro st st1 result q hok
    simp only [checkLoop] at hok
    cases hce : checkEntry cfg st result mo with
    | error e => simp [hce] at hok
    | ok sr =>
      obtain ⟨s1, q1⟩ := sr
      simp only [hce] at hok
      rw [ih s1 st1 q1 q hok]
      exact checkEntry_doFlatCheck cfg st s1 result q1 mo hce

/-- C12, counterexample. After a call with two limits for three error kinds
the flag `doFlatCheck` is set. The next call has three limits `[5, -1, 3]`, yet
the series `[16, 50, 12]` against the snapshot `[0, 0, 0]` is evaluated by the
flat scan (Good, nothing listed); in vector mode bins 0 and 2 are flagged. -/
theorem C12_flat_mode_counterexample :
    check cfgShort stInitial [linkQuiet] = .ok (stFlat, Quality.Good) ∧
    stFlat.doFlatCheck = true ∧
    cfgExample.vDecErrorLimits.length = cfgExample.NErrorsDefined ∧
    check cfgExample stFlat [⟨"General/LinkErrorPlots", some [16, 50, 12]⟩] =
      .ok (⟨1, 2, true, some [16, 50, 12], [], []⟩, Quality.Good) ∧
    check cfgExample ⟨1, 1, false, some [0, 0, 0], [], []⟩
        [⟨"General/LinkErrorPlots", some [16, 50, 12]⟩] =
      .ok (⟨1, 2, false, some [16, 50, 12], [0, 2], []⟩,
           ⟨QLevel.Bad, [(FlagType.Unknown, "BAD: ID = 0, Err0"),
                         (FlagType.Unknown, "BAD: ID = 2, Err2")]⟩) :=
  ⟨by rfl, by rfl, by rfl, by rfl, by rfl⟩

/-- C12, amended. The mode is decided from the flag `doFlatCheck` and the
vector built in the current call: the call is in flat-check mode when the flag
was already set or the vector has a length other than `K`, and `check` never
resets the flag. So after a call with a malformed vector the flag is set, and
every later call, also one whose vector has length `K`, evaluates link-error
series by the flat scan of lines 79 to 83 on `h` as line 75 left it, and
leaves the bad-bin list as it is. -/
theorem C12_flat_mode_persists (cfg : Config) (st st1 : State) (q : Quality)
    (moMap : List MonitorObject)
    (hlen : cfg.vDecErrorLimits.length ≠ cfg.NErrorsDefined)
    (hok : check cfg st moMap = .ok (st1, q)) :
    st1.doFlatCheck = true ∧
    ∀ cfg1 : Config,
      (checkInit cfg1 st1).doFlatCheck = true ∧
      (∀ (moMap1 : List MonitorObject) (st2 : State) (q2 : Quality),
        check cfg1 st1 moMap1 = .ok (st2, q2) → st2.doFlatCheck = true) ∧
      ∀ (name : String) (c : TH1D), isLinkErrorPlots name = true →
        check cfg1 st1 [⟨name, some c⟩] =
          .ok ({ checkInit cfg1 st1 with
                   nCycleLink := st1.nCycleLink + 1,
                   LinkErrorBuffer := some (linkDiff (checkInit cfg1 st1) c) },
               flatLoop (linkDiff (checkInit cfg1 st1) c) Quality.Good
                 (List.range' 1 (GetNbinsX (linkDiff (checkInit cfg1 st1) c) - 1))) := by
  have h0 : (checkInit cfg st).doFlatCheck = true := by
    simp [checkInit, hlen]
  have h1 : st1.doFlatCheck = true := by
    unfold check at hok
    rw [checkLoop_doFlatCheck cfg moMap _ st1 _ q hok, h0]
  refine ⟨h1, ?_⟩
  intro cfg1
  have h2 : (checkInit cfg1 st1).doFlatCheck = true := by
    simp [checkInit, h1]
  refine ⟨h2, ?_, ?_⟩
  · intro moMap1 st2 q2 hok2
    unfold check at hok2
    rw [checkLoop_doFlatCheck cfg1 moMap1 _ st2 _ q2 hok2, h2]
  · intro name c hname
    rw [check_singleton, checkEntry_link cfg1 _ _ name c hname,
      linkBlock_flat cfg1 _ c h2]
    rfl

/-- C12 (amended) on a fresh checker: a call with two limits for three error
kinds, then calls with any configuration. -/
theorem C12_flat_mode_persists_witness :
    stFlat.doFlatCheck = true ∧
    ∀ cfg1 : Config,
      (checkInit cfg1 stFlat).doFlatCheck = true ∧
      (∀ (moMap1 : List MonitorObject) (st2 : State) (q2 : Quality),
        check cfg1 stFlat moMap1 = .ok (st2, q2) → st2.doFlatCheck = true) ∧
      ∀ (name : String) (c : TH1D), isLinkErrorPlots name = true →
        check cfg1 stFlat [⟨name, some c⟩] =
          .ok ({ checkInit cfg1 stFlat with
                   nCycleLink := stFlat.nCycleLink + 1,
                   LinkErrorBuffer := some (linkDiff (checkInit cfg1 stFlat) c) },
               flatLoop (linkDiff (checkInit cfg1 stFlat) c) Quality.Good
                 (List.range' 1 (GetNbinsX (linkDiff (checkInit cfg1 stFlat) c) - 1))) :=
  C12_flat_mode_persists cfgShort stInitial stFlat Quality.Good [linkQuiet] (by decide) rfl

/-! ## C13 -/

/-- Vector mode leaves the level as it is or sets it to Bad. -/
theorem vectorLoop_level (cfg : Config) (diff : TH1D) :
    ∀ (bins bad bad1 : List Nat) (result r1 : Quality),
      vectorLoop cfg diff bins bad result = .ok (bad1, r1) →
      r1.level = result.level ∨ r1.level = QLevel.Bad := by
  intro bins
  induction bins with
  | nil =>
    intro bad bad1 result r1 hok
    simp only [vectorLoop, Except.ok.injEq, Prod.mk.injEq] at hok
    rw [hok.2]
    exact Or.inl rfl
  | cons b rest ih =>
    intro bad bad1 result r1 hok
    simp only [vectorLoop] at hok
    cases hget : cfg.vDecErrorLimits[b - 1]? with
    | none => simp [hget] at hok
    | some limit =>
      simp only [hget] at hok
      by_cases hneg : limit < 0
      · rw [if_pos hneg] at hok
        exact ih bad bad1 result r1 hok
      · rw [if_neg hneg] at hok
        by_cases hle : limit ≤ GetBinContent diff b
        · rw [if_pos hle] at hok
          rcases ih _ bad1 _ r1 hok with h | h
          · exact Or.inr (by rw [h]; rfl)
          · exact Or.inr h
        · rw [if_neg hle] at hok
          exact ih bad bad1 result r1 hok

/-- The link-error branch ends with the level Good or Bad. -/
theorem linkBlock_level (cfg : Config) (st st1 : State) (h : TH1D) (q : Quality)
    (hok : linkBlock cfg st h = .ok (st1, q)) :
    q.level = QLevel.Good ∨ q.level = QLevel.Bad := by
  unfold linkBlock at hok
  cases hf : st.doFlatCheck with
  | true =>
    simp only [hf, if_true, Except.ok.injEq, Prod.mk.injEq] at hok
    rw [← hok.2, flatLoop_eq]
    cases (List.range' 1 (GetNbinsX (linkDiff st h) - 1)).any
        (fun b => decide (200 < GetBinContent (linkDiff st h) b)) with
    | true => exact Or.inr rfl
    | false => exact Or.inl rfl
  | false =>
    simp only [hf, Bool.false_eq_true, if_false] at hok
    cases hv : vectorLoop cfg (linkDiff st h) (List.range' 1 (GetNbinsX (linkDiff st h)))
        st.vListErrorIdBad Quality.Good with
    | error e => simp [hv] at hok
    | ok br =>
      obtain ⟨bad1, r1⟩ := br
      simp only [hv, Except.ok.injEq, Prod.mk.injEq] at hok
      rw [← hok.2]
      rcases vectorLoop_level cfg _ _ _ bad1 _ r1 hv with h1 | h1
      · exact Or.inl h1
      · exact Or.inr h1

/-- A recognized entry ends with the level Good or Bad. -/
theorem checkEntry_level (cfg : Config) (st st1 : State) (result q : Quality)
    (mo : MonitorObject) (hrec : isRecognized mo.name = true)
    (hok : checkEntry cfg st result mo = .ok (st1, q)) :
    q.level = QLevel.Good ∨ q.level = QLevel.Bad := by
  unfold isRecognized at hrec
  rw [Bool.or_eq_true] at hrec
  cases hobj : mo.object with
  | none =>
    have hmo : mo = ⟨mo.name, none⟩ := by
      cases mo
      simp_all
    rw [hmo, checkEntry_no_cast cfg st result mo.name
      (by unfold isRecognized; rw [Bool.or_eq_true]; exact hrec)] at hok
    simp only [Except.ok.injEq, Prod.mk.injEq] at hok
    rw [← hok.2]
    exact Or.inl rfl
  | some h =>
    rcases hrec with hchip | hlink
    · have hl : isLinkErrorPlots mo.name = false := by
        by_contra hc
        have := chip_false_of_link mo.name (by simpa using hc)
        rw [hchip] at this
        exact absurd this (by decide)
      simp only [checkEntry, hchip, hobj, hl, if_true, Bool.false_eq_true, if_false,
        Except.ok.injEq, Prod.mk.injEq] at hok
      rw [← hok.2]
      by_cases hmax : GetMaximum h > 200
      · rw [if_pos hmax]
        exact Or.inr rfl
      · rw [if_neg hmax]
        exact Or.inl rfl
    · have hmo : mo = ⟨mo.name, some h⟩ := by
        cases mo
        simp_all
      rw [hmo, checkEntry_link cfg st result mo.name h hlink] at hok
      exact linkBlock_level cfg st st1 h q hok

/-- The loop over the map ends with the level Good or Bad when it starts with
one of them or meets a recognized entry. -/
theorem checkLoop_level (cfg : Config) :
    ∀ (l : List MonitorObject) (st st1 : State) (result q : Quality),
      ((result.level = QLevel.Good ∨ result.level = QLevel.Bad) ∨
        ∃ mo ∈ l, isRecognized mo.name = true) →
      checkLoop cfg l st result = .ok (st1, q) →
      q.level = QLevel.Good ∨ q.level = QLevel.Bad := by
  intro l
  induction l with
  | nil =>
    intro st st1 result q h hok
    simp only [checkLoop, Except.ok.injEq, Prod.mk.injEq] at hok
    rw [← hok.2]
    rcases h with h | ⟨mo, hmo, _⟩
    · exact h
    · exact absurd hmo (List.not_mem_nil mo)
  | cons mo rest ih =>
    intro st st1 result q h hok
    simp only [checkLoop] at hok
    cases hce : checkEntry cfg st result mo with
    | error e => simp [hce] at hok
    | ok sr =>
      obtain ⟨s1, q1⟩ := sr
      simp only [hce] at hok
      by_cases hrec : isRecognized mo.name = true
      · exact ih s1 st1 q1 q (Or.inl (checkEntry_level cfg st s1 result q1 mo hrec hce)) hok
      · have hrec1 : isRecognized mo.name = false := by simpa using hrec
        rw [checkEntry_unrecognized cfg st result mo hrec1] at hce
        simp only [Except.ok.injEq, Prod.mk.injEq] at hce
        rw [← hce.1, ← hce.2] at hok
        apply ih st st1 result q _ hok
        rcases h with h | ⟨x, hx, hxrec⟩
        · exact Or.inl h
        · rcases List.mem_cons.mp hx with hx1 | hx1
          · rw [hx1, hrec1] at hxrec
            exact absurd hxrec (by decide)
          · exact Or.inr ⟨x, hx1, hxrec⟩

/-- The loop over the map ends normally when every castable link-error series
has `n` bins, the snapshot (if there is one) has `n` bins, and the call is in
flat-check mode or there are at least `n` limits. -/
theorem checkLoop_ok (cfg : Config) (n : Nat) :
    ∀ (l : List MonitorObject) (st : State) (result : Quality),
      (∀ mo ∈ l, ∀ h, isLinkErrorPlots mo.name = true → mo.object = some h →
        h.length = n) →
      (st.nCycleLink = 0 ∨ ∃ p, st.LinkErrorBuffer = some p ∧ p.length = n) →
      (st.doFlatCheck = true ∨ n ≤ cfg.vDecErrorLimits.length) →
      ∃ st1 q, checkLoop cfg l st result = .ok (st1, q) := by
  intro l
  induction l with
  | nil =>
    intro st result _ _ _
    exact ⟨st, result, rfl⟩
  | cons mo rest ih =>
    intro st result hbins hprior hmode
    have hrest : ∀ x ∈ rest, ∀ h, isLinkErrorPlots x.name = true → x.object = some h →
        h.length = n := fun x hx => hbins x (List.mem_cons_of_mem _ hx)
    by_cases hl : isLinkErrorPlots mo.name = true
    · cases hobj : mo.object with
      | none =>
        obtain ⟨r, hr⟩ := checkEntry_not_link cfg st result mo (Or.inr hobj)
        simp only [checkLoop, hr]
        exact ih st r hrest hprior hmode
      | some h =>
        have hmo : mo = ⟨mo.name, some h⟩ := by
          cases mo
          simp_all
        have hn : h.length = n := hbins mo (List.mem_cons_self _ _) h hl hobj
        obtain ⟨s1, q1, hlb⟩ := linkBlock_ok cfg st h (by rw [hn]; exact hmode)
        obtain ⟨hf1, hb1, _⟩ := linkBlock_state cfg st s1 h q1 hlb
        have hce : checkEntry cfg st result mo = .ok (s1, q1) := by
          rw [hmo, checkEntry_link cfg st result mo.name h hl, hlb]
        simp only [checkLoop, hce]
        apply ih s1 q1 hrest
          (Or.inr ⟨linkDiff st h, hb1, by rw [linkDiff_length]; exact hn⟩)
        rcases hmode with hm | hm
        · exact Or.inl (by rw [hf1, hm])
        · exact Or.inr hm
    · obtain ⟨r, hr⟩ := checkEntry_not_link cfg st result mo (Or.inl (by simpa using hl))
      simp only [checkLoop, hr]
      exact ih st r hrest hprior hmode

/-- C13. The verdict `check` returns is Null exactly when no entry of the
batch has a recognized name; when a recognized entry is present it is Good or
Bad, never Null or Medium. A batch without recognized entry always returns
(Null, the state untouched but for the first lines); a batch whose castable
link-error series all have `n` bins returns when the snapshot has `n` bins and
the call is in flat-check mode or has at least `n` limits. -/
theorem C13_null_iff_unrecognized (cfg : Config) (st : State) (moMap : List MonitorObject) :
    ((∀ mo ∈ moMap, isRecognized mo.name = false) →
      check cfg st moMap = .ok (checkInit cfg st, Quality.Null)) ∧
    (∀ (st1 : State) (q : Quality), check cfg st moMap = .ok (st1, q) →
      (q.level = QLevel.Null ↔ ∀ mo ∈ moMap, isRecognized mo.name = false) ∧
      ((∃ mo ∈ moMap, isRecognized mo.name = true) →
        q.level = QLevel.Good ∨ q.level = QLevel.Bad)) ∧
    (∀ n : Nat,
      (∀ mo ∈ moMap, ∀ h, isLinkErrorPlots mo.name = true → mo.object = some h →
        h.length = n) →
      (st.nCycleLink = 0 ∨ ∃ p, st.LinkErrorBuffer = some p ∧ p.length = n) →
      ((checkInit cfg st).doFlatCheck = true ∨ n ≤ cfg.vDecErrorLimits.length) →
      ∃ st1 q, check cfg st moMap = .ok (st1, q)) := by
  refine ⟨?_, ?_, ?_⟩
  · intro hnone
    exact checkLoop_unrecognized cfg moMap _ _ hnone
  · intro st1 q hok
    have hsome : (∃ mo ∈ moMap, isRecognized mo.name = true) →
        q.level = QLevel.Good ∨ q.level = QLevel.Bad := fun h =>
      checkLoop_level cfg moMap _ st1 _ q (Or.inr h) hok
    refine ⟨⟨?_, ?_⟩, hsome⟩
    · intro hnull mo hmo
      by_contra hrec
      have hrec1 : isRecognized mo.name = true := by simpa using hrec
      rcases hsome ⟨mo, hmo, hrec1⟩ with h | h
      · rw [hnull] at h
        exact absurd h (by decide)
      · rw [hnull] at h
        exact absurd h (by decide)
    · intro hnone
      have h := checkLoop_unrecognized cfg moMap (checkInit cfg st) Quality.Null hnone
      unfold check at hok
      rw [h] at hok
      simp only [Except.ok.injEq, Prod.mk.injEq] at hok
      rw [← hok.2]
      rfl
  · intro n hbins hprior hmode
    exact checkLoop_ok cfg n moMap (checkInit cfg st) Quality.Null hbins hprior hmode

/-- C13 on three batches of a fresh checker: one unrecognized entry gives
Null; the aggregate series followed by a quiet link-error series gives Good,
which is neither Null nor Medium; and that batch returns. -/
theorem C13_null_iff_unrecognized_witness :
    check cfgExample stInitial [⟨"General/Other", some [500]⟩] =
      .ok (checkInit cfgExample stInitial, Quality.Null) ∧
    ((Quality.Good.level = QLevel.Null ↔
        ∀ mo ∈ [chipHigh, linkQuiet], isRecognized mo.name = false) ∧
      ((∃ mo ∈ [chipHigh, linkQuiet], isRecognized mo.name = true) →
        Quality.Good.level = QLevel.Good ∨ Quality.Good.level = QLevel.Bad)) ∧
    (∃ st1 q, check cfgExample stInitial [chipHigh, linkQuiet] = .ok (st1, q)) :=
  ⟨(C13_null_iff_unrecognized cfgExample stInitial [⟨"General/Other", some [500]⟩]).1
      (by decide),
    (C13_null_iff_unrecognized cfgExample stInitial [chipHigh, linkQuiet]).2.1
      ⟨1, 1, false, some [0, 0, 0], [], []⟩ Quality.Good rfl,
    (C13_null_iff_unrecognized cfgExample stInitial [chipHigh, linkQuiet]).2.2 3
      (by
        intro mo hmo h hl hobj
        simp only [List.mem_cons, List.mem_singleton, List.not_mem_nil, or_false] at hmo
        rcases hmo with rfl | rfl
        · exact absurd hl (by decide)
        · simp only [linkQuiet, Option.some.injEq] at hobj
          subst hobj
          rfl)
      (Or.inl rfl) (Or.inr (by decide))⟩

/-! ## Lemmas on beautify -/

/-- What `beautify` does for a recognized name once the cast has succeeded: it
attaches the per-bin labels, the status banner and the shifter note, in this
order, and clears the two lists. -/
theorem beautify_castable (cfg : Config) (st : State) (name : String) (h : TH1D)
    (q : Quality) (hrec : isRecognized name = true) :
    beautify cfg st ⟨name, some h⟩ q =
      ({ st with vListErrorIdBad := [], vListErrorIdMedium := [] },
        perBinLabels cfg st.vListErrorIdBad q ++ [statusBanner q] ++ shifterNote cfg name) := by
  have hcond : (isLinkErrorPlots name || isChipErrorPlots name) = true := by
    unfold isRecognized at hrec
    rw [Bool.or_comm]
    exact hrec
  unfold beautify perBinLabels statusBanner shifterNote
  simp only [hcond, if_true]

/-- The levels of `Quality::Good` and `Quality::Bad` in the comparisons of
`beautify`. -/
theorem sameAs_level (q : Quality) :
    (q.sameAs Quality.Good = true ↔ q.level = QLevel.Good) ∧
      (q.sameAs Quality.Bad = true ↔ q.level = QLevel.Bad) := by
  simp [Quality.sameAs, Quality.Good, Quality.Bad]

/-! ## C14 -/

/-- C14. In vector mode, for a batch of one link-error series with `K` bins
and an empty bad-bin list at the start, the flags of the verdict `check`
returns are, one for one and in the same order, those of the entries of the
bad-bin list, the flag of index `i` being `BAD: ID = i, ErrNames[i]`; a Good
verdict has no flag; and for a Bad verdict the per-bin labels of `beautify`
carry the texts of the flags, in the same order. -/
theorem C14_flags_match_bad_bins (cfg : Config) (st : State) (name : String) (c p : TH1D)
    (ht : cfg.vDecErrorLimits.length = cfg.NErrorsDefined)
    (hflat : st.doFlatCheck = false)
    (hname : isLinkErrorPlots name = true)
    (hc : c.length = cfg.NErrorsDefined) (hp : p.length = cfg.NErrorsDefined)
    (hprior : (if st.nCycleLink = 0 then some c else st.LinkErrorBuffer) = some p)
    (hbad : st.vListErrorIdBad = []) :
    ∃ st1 q, check cfg st [⟨name, some c⟩] = .ok (st1, q) ∧
      q.flags = st1.vListErrorIdBad.map
        (fun i => (FlagType.Unknown, "BAD: ID = " ++ toString i ++ ", " ++ cfg.ErrNames i)) ∧
      (q.level = QLevel.Good ∨ q.level = QLevel.Bad) ∧
      (q.level = QLevel.Good → q.flags = [] ∧ st1.vListErrorIdBad = []) ∧
      (q.level = QLevel.Bad →
        (beautify cfg st1 ⟨name, some c⟩ q).2 =
          q.flags.map (fun f => (⟨f.2, Color.kRedPlus2⟩ : TLatex)) ++
            [⟨boldText "Quality::BAD (call expert)", Color.kRedPlus2⟩] ++
            shifterNote cfg name) := by
  have hflat1 : (checkInit cfg st).doFlatCheck = false := by
    rw [checkInit_doFlatCheck cfg st ht, hflat]
  have hbuf1 : (if (checkInit cfg st).nCycleLink = 0 then some c
      else (checkInit cfg st).LinkErrorBuffer) = some p := hprior
  have hbad1 : (checkInit cfg st).vListErrorIdBad = [] := hbad
  have hrec : isRecognized name = true := by
    unfold isRecognized
    rw [hname, Bool.or_true]
  rw [check_singleton, checkEntry_link cfg _ _ name c hname,
    linkBlock_vector cfg _ c p hflat1 ht hc hp hbuf1]
  refine ⟨_, _, rfl, ?_, ?_, ?_, ?_⟩
  · simp only [hbad1, List.nil_append]
    rfl
  · by_cases hb : badIndices cfg.NErrorsDefined cfg.vDecErrorLimits c p = []
    · exact Or.inl (by simp [hb])
    · exact Or.inr (by simp [hb])
  · intro hgood
    by_cases hb : badIndices cfg.NErrorsDefined cfg.vDecErrorLimits c p = []
    · simp [hb, hbad1]
    · simp [hb] at hgood
  · intro hbadlevel
    rw [beautify_castable cfg _ name c _ hrec]
    have hB : Quality.sameAs
        ⟨if badIndices cfg.NErrorsDefined cfg.vDecErrorLimits c p = [] then QLevel.Good
          else QLevel.Bad,
          (badIndices cfg.NErrorsDefined cfg.vDecErrorLimits c p).map
            (fun i => (FlagType.Unknown, badText cfg i))⟩ Quality.Bad = true :=
      (sameAs_level _).2.mpr hbadlevel
    have hG : Quality.sameAs
        ⟨if badIndices cfg.NErrorsDefined cfg.vDecErrorLimits c p = [] then QLevel.Good
          else QLevel.Bad,
          (badIndices cfg.NErrorsDefined cfg.vDecErrorLimits c p).map
            (fun i => (FlagType.Unknown, badText cfg i))⟩ Quality.Good = false := by
      rw [Bool.eq_false_iff]
      intro hg
      have := (sameAs_level _).1.mp hg
      rw [hbadlevel] at this
      exact absurd this (by decide)
    simp only [perBinLabels, statusBanner, hB, hG, Bool.false_eq_true, if_false, if_true,
      hbad1, List.nil_append, List.map_map]
    rfl

/-- C14 at the limits `[5, -1, 3]`, snapshot `[0, 0, 0]` and bins
`[16, 50, 12]`: bins 0 and 2 are listed, flagged and labelled. -/
theorem C14_flags_match_bad_bins_witness :
    (∃ st1 q, check cfgExample ⟨1, 1, false, some [0, 0, 0], [], []⟩
        [⟨"General/LinkErrorPlots", some [16, 50, 12]⟩] = .ok (st1, q) ∧
      q.flags = st1.vListErrorIdBad.map
        (fun i => (FlagType.Unknown,
          "BAD: ID = " ++ toString i ++ ", " ++ cfgExample.ErrNames i)) ∧
      (q.level = QLevel.Good ∨ q.level = QLevel.Bad) ∧
      (q.level = QLevel.Good → q.flags = [] ∧ st1.vListErrorIdBad = []) ∧
      (q.level = QLevel.Bad →
        (beautify cfgExample st1 ⟨"General/LinkErrorPlots", some [16, 50, 12]⟩ q).2 =
          q.flags.map (fun f => (⟨f.2, Color.kRedPlus2⟩ : TLatex)) ++
            [⟨boldText "Quality::BAD (call expert)", Color.kRedPlus2⟩] ++
            shifterNote cfgExample "General/LinkErrorPlots")) ∧
    check cfgExample ⟨1, 1, false, some [0, 0, 0], [], []⟩
        [⟨"General/LinkErrorPlots", some [16, 50, 12]⟩] =
      .ok (⟨1, 2, false, some [16, 50, 12], [0, 2], []⟩,
           ⟨QLevel.Bad, [(FlagType.Unknown, "BAD: ID = 0, Err0"),
                         (FlagType.Unknown, "BAD: ID = 2, Err2")]⟩) ∧
    (beautify cfgExample ⟨1, 2, false, some [16, 50, 12], [0, 2], []⟩
        ⟨"General/LinkErrorPlots", some [16, 50, 12]⟩ Quality.Bad).2 =
      [⟨"BAD: ID = 0, Err0", Color.kRedPlus2⟩, ⟨"BAD: ID = 2, Err2", Color.kRedPlus2⟩,
       ⟨boldText "Quality::BAD (call expert)", Color.kRedPlus2⟩] :=
  ⟨C14_flags_match_bad_bins cfgExample ⟨1, 1, false, some [0, 0, 0], [], []⟩
      "General/LinkErrorPlots" [16, 50, 12] [0, 0, 0] rfl rfl (by decide) rfl rfl rfl rfl,
    by rfl, by rfl⟩

/-! ## C15 -/

/-- C15. For a recognized series whose cast succeeds, `beautify` with the
verdict Bad and the bad-bin list `[e_0, ..., e_(n-1)]` attaches the `n` per-bin
labels `BAD: ID = e_j, ErrNames[e_j]` in the order of the list and then one
status banner `Quality::BAD (call expert)`; with the verdict Good it attaches
one status banner `Quality::GOOD` and no per-bin label, whatever the list
holds. The banner text is set in bold (`boldText`); the shifter note, when
there is one, comes after the banner and is the only black label. -/
theorem C15_beautify_labels (cfg : Config) (st : State) (name : String) (h : TH1D)
    (q : Quality) (hrec : isRecognized name = true) :
    (q.level = QLevel.Bad →
      (beautify cfg st ⟨name, some h⟩ q).2 =
        st.vListErrorIdBad.map (fun e =>
          (⟨"BAD: ID = " ++ toString e ++ ", " ++ cfg.ErrNames e, Color.kRedPlus2⟩ : TLatex)) ++
        [⟨boldText "Quality::BAD (call expert)", Color.kRedPlus2⟩] ++
        shifterNote cfg name) ∧
    (q.level = QLevel.Good →
      (beautify cfg st ⟨name, some h⟩ q).2 =
        [⟨boldText "Quality::GOOD", Color.kGreen⟩] ++ shifterNote cfg name) ∧
    (∀ l ∈ shifterNote cfg name, l.color = Color.kBlack) ∧
    (shifterNote cfg name).length ≤ 1 := by
  refine ⟨?_, ?_, ?_, ?_⟩
  · intro hbad
    have hB : q.sameAs Quality.Bad = true := (sameAs_level q).2.mpr hbad
    have hG : q.sameAs Quality.Good = false := by
      rw [Bool.eq_false_iff]
      intro hg
      have := (sameAs_level q).1.mp hg
      rw [hbad] at this
      exact absurd this (by decide)
    rw [beautify_castable cfg st name h q hrec]
    simp only [perBinLabels, statusBanner, hB, hG, Bool.false_eq_true, if_false, if_true]
    rfl
  · intro hgood
    have hG : q.sameAs Quality.Good = true := (sameAs_level q).1.mpr hgood
    rw [beautify_castable cfg st name h q hrec]
    simp only [perBinLabels, statusBanner, hG, if_true, List.nil_append]
  · intro l hl
    unfold shifterNote at hl
    split at hl
    · simp only [List.mem_singleton] at hl
      rw [hl]
    · exact absurd hl (List.not_mem_nil l)
  · unfold shifterNote
    split <;> simp

/-- C15 on the link-error plot with the bad-bin list `[0]`: verdict Bad gives
the label of bin 0 and the Bad banner, verdict Good gives the Good banner
alone. -/
theorem C15_beautify_labels_witness :
    (beautify cfgExample stAfterBad ⟨"General/LinkErrorPlots", some [16, 50, 12]⟩
        Quality.Bad).2 =
      [⟨"BAD: ID = 0, Err0", Color.kRedPlus2⟩,
       ⟨boldText "Quality::BAD (call expert)", Color.kRedPlus2⟩] ∧
    (beautify cfgExample stAfterBad ⟨"General/LinkErrorPlots", some [16, 50, 12]⟩
        Quality.Good).2 =
      [⟨boldText "Quality::GOOD", Color.kGreen⟩] :=
  ⟨((C15_beautify_labels cfgExample stAfterBad "General/LinkErrorPlots" [16, 50, 12]
      Quality.Bad (by decide)).1 rfl).trans (by rfl),
    ((C15_beautify_labels cfgExample stAfterBad "General/LinkErrorPlots" [16, 50, 12]
      Quality.Good (by decide)).2.1 rfl).trans (by rfl)⟩

/-! ## C16 -/

/-- The value of `ShifterInfoText[name]` after one more assignment: the last
assignment to a key is the one that counts. -/
theorem lookupText_append (m : List (String × String)) (k v name : String) :
    lookupText (m ++ [(k, v)]) name = if k = name then v else lookupText m name := by
  simp [lookupText, List.foldl_append]

/-- C16. For a recognized series whose cast succeeds, `beautify` attaches the
shifter note, after the status banner, exactly when the list of plot names and
the list of texts have the same length and the text of the series' name is
not empty. No other label is black, so the note is attached if and only if
that condition holds. When the two lists differ in length, no series gets a
note and the status banner is still there. -/
theorem C16_shifter_note (cfg : Config) (st : State) (name : String) (h : TH1D)
    (q : Quality) (hrec : isRecognized name = true) :
    (beautify cfg st ⟨name, some h⟩ q).2 =
      perBinLabels cfg st.vListErrorIdBad q ++ [statusBanner q] ++
        (if cfg.vTextMessage.length = cfg.vPlotWithTextMessage.length ∧
            lookupText (List.zip cfg.vPlotWithTextMessage cfg.vTextMessage) name ≠ "" then
          [⟨boldText (lookupText (List.zip cfg.vPlotWithTextMessage cfg.vTextMessage) name),
            Color.kBlack⟩]
        else []) ∧
    (∀ l ∈ perBinLabels cfg st.vListErrorIdBad q ++ [statusBanner q],
      l.color ≠ Color.kBlack) ∧
    (cfg.vTextMessage.length ≠ cfg.vPlotWithTextMessage.length →
      ∀ (st1 : State) (name1 : String) (h1 : TH1D) (q1 : Quality),
        isRecognized name1 = true →
        (beautify cfg st1 ⟨name1, some h1⟩ q1).2 =
          perBinLabels cfg st1.vListErrorIdBad q1 ++ [statusBanner q1]) := by
  refine ⟨?_, ?_, ?_⟩
  · rw [beautify_castable cfg st name h q hrec]
    by_cases hlen : cfg.vTextMessage.length = cfg.vPlotWithTextMessage.length
    · simp only [shifterNote, ShifterInfoText, hlen, if_true, true_and]
    · have hempty : lookupText ([] : List (String × String)) name = "" := rfl
      simp only [shifterNote, ShifterInfoText, hlen, if_false, false_and, hempty, ne_eq,
        not_true_eq_false]
  · intro l hl
    rw [List.mem_append, List.mem_singleton] at hl
    rcases hl with hl | hl
    · unfold perBinLabels at hl
      split at hl
      · exact absurd hl (List.not_mem_nil l)
      · split at hl
        · rw [List.mem_map] at hl
          obtain ⟨e, _, he⟩ := hl
          rw [← he]
          exact fun hcol => Color.noConfusion hcol
        · exact absurd hl (List.not_mem_nil l)
    · rw [hl]
      unfold statusBanner
      split
      · decide
      · split <;> decide
  · intro hlen st1 name1 h1 q1 hrec1
    have hempty : lookupText ([] : List (String × String)) name1 = "" := rfl
    rw [beautify_castable cfg st1 name1 h1 q1 hrec1]
    simp only [shifterNote, ShifterInfoText, hlen, if_false, hempty, ne_eq,
      not_true_eq_false, List.append_nil]

/-- C16 on the link-error plot: with one plot name and one text the note is
attached after the banner; with two plot names and one text it is not. -/
theorem C16_shifter_note_witness :
    (beautify cfgText stAfterBad ⟨"General/LinkErrorPlots", some [16, 50, 12]⟩
        Quality.Good).2 =
      [⟨boldText "Quality::GOOD", Color.kGreen⟩,
       ⟨boldText "call the expert", Color.kBlack⟩] ∧
    (beautify cfgTextShort stAfterBad ⟨"General/LinkErrorPlots", some [16, 50, 12]⟩
        Quality.Good).2 =
      [⟨boldText "Quality::GOOD", Color.kGreen⟩] :=
  ⟨((C16_shifter_note cfgText stAfterBad "General/LinkErrorPlots" [16, 50, 12]
      Quality.Good (by decide)).1).trans (by rfl),
    ((C16_shifter_note cfgTextShort stAfterBad "General/LinkErrorPlots" [16, 50, 12]
      Quality.Good (by decide)).2.2 (by decide) stAfterBad "General/LinkErrorPlots"
      [16, 50, 12] Quality.Good (by decide)).trans (by rfl)⟩

/-! ## C17 -/

/-- The link-error branch yields the same verdict and bad-bin records from two
states with the same mode, the same histogram to compare with and the same
bad-bin list. -/
theorem linkBlock_outcome (cfg : Config) (st st1 : State) (c : TH1D)
    (hmode : st.doFlatCheck = st1.doFlatCheck)
    (hprior : (if st.nCycleLink = 0 then some c else st.LinkErrorBuffer) =
      (if st1.nCycleLink = 0 then some c else st1.LinkErrorBuffer))
    (hbad : st.vListErrorIdBad = st1.vListErrorIdBad) :
    outcome (linkBlock cfg st c) = outcome (linkBlock cfg st1 c) := by
  have hd : linkDiff st c = linkDiff st1 c := by
    unfold linkDiff
    rw [hprior]
  unfold linkBlock
  rw [hd, hmode, hbad]
  cases st1.doFlatCheck with
  | true => rfl
  | false =>
    simp only [Bool.false_eq_true, if_false]
    cases vectorLoop cfg (linkDiff st1 c) (List.range' 1 (GetNbinsX (linkDiff st1 c)))
        st1.vListErrorIdBad Quality.Good with
    | error e => rfl
    | ok br => rfl

/-- C17. The verdict and the bad-bin records of an evaluation are a function
of the bins of the series, the snapshot it is compared with, the
configuration of the limits with the mode of the cycle, and the bad-bin list
at the start: two evaluations that agree on these give the same verdict, the
same flags and the same bad-bin list, whatever the name of the series and the
rest of the state. -/
theorem C17_evaluation_deterministic (cfg : Config) (st st1 : State)
    (name name1 : String) (c : TH1D)
    (hname : isLinkErrorPlots name = true) (hname1 : isLinkErrorPlots name1 = true)
    (hmode : st.doFlatCheck = st1.doFlatCheck)
    (hprior : (if st.nCycleLink = 0 then some c else st.LinkErrorBuffer) =
      (if st1.nCycleLink = 0 then some c else st1.LinkErrorBuffer))
    (hbad : st.vListErrorIdBad = st1.vListErrorIdBad) :
    outcome (check cfg st [⟨name, some c⟩]) = outcome (check cfg st1 [⟨name1, some c⟩]) := by
  rw [check_singleton, check_singleton, checkEntry_link cfg _ _ name c hname,
    checkEntry_link cfg _ _ name1 c hname1]
  apply linkBlock_outcome
  · simp [checkInit, hmode]
  · exact hprior
  · exact hbad

/-- C17 at the limits `[5, -1, 3]`, snapshot `[10, 10, 10]` and bins
`[16, 50, 12]`, from two states that differ in the counters only: both
evaluations give Bad with the bad-bin list `[0]`. -/
theorem C17_evaluation_deterministic_witness :
    outcome (check cfgExample stExample [⟨"General/LinkErrorPlots", some [16, 50, 12]⟩]) =
      outcome (check cfgExample ⟨7, 4, false, some [10, 10, 10], [], [3]⟩
        [⟨"General/LinkErrorPlotsB", some [16, 50, 12]⟩]) ∧
    outcome (check cfgExample stExample [⟨"General/LinkErrorPlots", some [16, 50, 12]⟩]) =
      .ok ([0], ⟨QLevel.Bad, [(FlagType.Unknown, "BAD: ID = 0, Err0")]⟩) :=
  ⟨C17_evaluation_deterministic cfgExample stExample ⟨7, 4, false, some [10, 10, 10], [], [3]⟩
      "General/LinkErrorPlots" "General/LinkErrorPlotsB" [16, 50, 12] (by decide) (by decide)
      rfl rfl rfl,
    by rfl⟩

/-! ## C18 -/

/-- A value is below the running maximum exactly when it is below the start
value or below an entry. -/
theorem lt_foldl_max (k : Int) :
    ∀ (bs : List Int) (b : Int), k < bs.foldl max b ↔ k < b ∨ ∃ x ∈ bs, k < x := by
  intro bs
  induction bs with
  | nil =>
    intro b
    simp
  | cons y rest ih =>
    intro b
    rw [List.foldl_cons, ih, lt_max_iff]
    constructor
    · rintro ((h | h) | ⟨x, hx, hk⟩)
      · exact Or.inl h
      · exact Or.inr ⟨y, List.mem_cons_self _ _, h⟩
      · exact Or.inr ⟨x, List.mem_cons_of_mem _ hx, hk⟩
    · rintro (h | ⟨x, hx, hk⟩)
      · exact Or.inl (Or.inl h)
      · rcases List.mem_cons.mp hx with hxy | hxr
        · rw [hxy] at hk
          exact Or.inl (Or.inr hk)
        · exact Or.inr ⟨x, hxr, hk⟩

/-- The maximum is above a value exactly when a bin is. -/
theorem lt_GetMaximum (k : Int) (hk : 0 ≤ k) (h : TH1D) :
    k < GetMaximum h ↔ ∃ x ∈ h, k < x := by
  cases h with
  | nil =>
    simp only [GetMaximum, List.not_mem_nil, false_and, exists_false, iff_false]
    omega
  | cons b bs =>
    simp only [GetMaximum]
    rw [lt_foldl_max]
    constructor
    · rintro (h1 | ⟨x, hx, hk1⟩)
      · exact ⟨b, List.mem_cons_self _ _, h1⟩
      · exact ⟨x, List.mem_cons_of_mem _ hx, hk1⟩
    · rintro ⟨x, hx, hk1⟩
      rcases List.mem_cons.mp hx with hxb | hxr
      · rw [hxb] at hk1
        exact Or.inl hk1
      · exact Or.inr ⟨x, hxr, hk1⟩

/-- C18. For a batch of the aggregate series `General/ChipErrorPlots` alone,
cast succeeding, `check` returns Bad when the largest bin content is above 200
and Good otherwise, whatever the limits, the mode and the snapshot; it leaves
the snapshot, the counter of link-error evaluations and the bad-bin list as
they are, and attaches no flag. -/
theorem C18_chip_ceiling (cfg : Config) (st : State) (h : TH1D) :
    check cfg st [⟨"General/ChipErrorPlots", some h⟩] =
      .ok (checkInit cfg st, if 200 < GetMaximum h then Quality.Bad else Quality.Good) ∧
    (200 < GetMaximum h ↔ ∃ x ∈ h, 200 < x) ∧
    (checkInit cfg st).LinkErrorBuffer = st.LinkErrorBuffer ∧
    (checkInit cfg st).nCycleLink = st.nCycleLink ∧
    (checkInit cfg st).vListErrorIdBad = st.vListErrorIdBad ∧
    (checkInit cfg st).vListErrorIdMedium = st.vListErrorIdMedium := by
  refine ⟨?_, lt_GetMaximum 200 (by decide) h, rfl, rfl, rfl, rfl⟩
  have hchip : isChipErrorPlots "General/ChipErrorPlots" = true := by decide
  have hlink : isLinkErrorPlots "General/ChipErrorPlots" = false := by decide
  rw [check_singleton]
  simp only [checkEntry, hchip, hlink, if_true, Bool.false_eq_true, if_false]
  by_cases hmax : 200 < GetMaximum h
  · have hmax1 : GetMaximum h > 200 := hmax
    rw [if_pos hmax, if_pos hmax1]
    rfl
  · have hmax1 : ¬ GetMaximum h > 200 := hmax
    rw [if_neg hmax, if_neg hmax1]

/-! ## C19 -/

/-- The flat scan attaches no flag. -/
theorem flatLoop_flags (h : TH1D) (result : Quality) (bins : List Nat) :
    (flatLoop h result bins).flags = result.flags := by
  rw [flatLoop_eq]
  split <;> rfl

/-- An entry that is not a castable link-error series attaches no flag. -/
theorem checkEntry_not_link_flags (cfg : Config) (st : State) (result : Quality)
    (mo : MonitorObject) (h : isLinkErrorPlots mo.name = false ∨ mo.object = none)
    (hr : result.flags = []) :
    ∃ r, checkEntry cfg st result mo = .ok (st, r) ∧ r.flags = [] := by
  unfold checkEntry
  rcases h with h | h
  · cases hchip : isChipErrorPlots mo.name
    · exact ⟨result, by simp [h], hr⟩
    · cases hobj : mo.object with
      | none => exact ⟨Quality.Good, by simp [h], rfl⟩
      | some hist =>
        by_cases hmax : GetMaximum hist > 200
        · exact ⟨Quality.Good.set Quality.Bad, by simp [h, hmax], rfl⟩
        · exact ⟨Quality.Good, by simp [h, hmax], rfl⟩
  · cases hchip : isChipErrorPlots mo.name
    · cases hlink : isLinkErrorPlots mo.name
      · exact ⟨result, by simp [h], hr⟩
      · exact ⟨Quality.Good, by simp [h], rfl⟩
    · exact ⟨Quality.Good, by simp [h], rfl⟩

/-- In flat-check mode an entry leaves the bad-bin list as it is and attaches
no flag. -/
theorem checkEntry_flat_records (cfg : Config) (st s1 : State) (result q1 : Quality)
    (mo : MonitorObject) (hf : st.doFlatCheck = true) (hr : result.flags = [])
    (hok : checkEntry cfg st result mo = .ok (s1, q1)) :
    s1.vListErrorIdBad = st.vListErrorIdBad ∧ q1.flags = [] := by
  by_cases hl : isLinkErrorPlots mo.name = true
  · cases hobj : mo.object with
    | none =>
      obtain ⟨r, hce, hrf⟩ := checkEntry_not_link_flags cfg st result mo (Or.inr hobj) hr
      rw [hce] at hok
      simp only [Except.ok.injEq, Prod.mk.injEq] at hok
      rw [← hok.1, ← hok.2]
      exact ⟨rfl, hrf⟩
    | some h =>
      have hmo : mo = ⟨mo.name, some h⟩ := by
        cases mo
        simp_all
      rw [hmo, checkEntry_link cfg st result mo.name h hl,
        linkBlock_flat cfg st h hf] at hok
      simp only [Except.ok.injEq, Prod.mk.injEq] at hok
      rw [← hok.1, ← hok.2]
      exact ⟨rfl, flatLoop_flags _ Quality.Good _⟩
  · obtain ⟨r, hce, hrf⟩ := checkEntry_not_link_flags cfg st result mo
      (Or.inl (by simpa using hl)) hr
    rw [hce] at hok
    simp only [Except.ok.injEq, Prod.mk.injEq] at hok
    rw [← hok.1, ← hok.2]
    exact ⟨rfl, hrf⟩

/-- In flat-check mode the loop over the map leaves the bad-bin list as it is
and attaches no flag. -/
theorem checkLoop_flat_records (cfg : Config) :
    ∀ (l : List MonitorObject) (st s1 : State) (result q1 : Quality),
      st.doFlatCheck = true → result.flags = [] →
      checkLoop cfg l st result = .ok (s1, q1) →
      s1.vListErrorIdBad = st.vListErrorIdBad ∧ q1.flags = [] := by
  intro l
  induction l with
  | nil =>
    intro st s1 result q1 _ hr hok
    simp only [checkLoop, Except.ok.injEq, Prod.mk.injEq] at hok
    rw [← hok.1, ← hok.2]
    exact ⟨rfl, hr⟩
  | cons mo rest ih =>
    intro st s1 result q1 hf hr hok
    simp only [checkLoop] at hok
    cases hce : checkEntry cfg st result mo with
    | error e => simp [hce] at hok
    | ok sr =>
      obtain ⟨s0, q0⟩ := sr
      simp only [hce] at hok
      obtain ⟨hb0, hf0⟩ := checkEntry_flat_records cfg st s0 result q0 mo hf hr hce
      have hflat0 : s0.doFlatCheck = true := by
        rw [checkEntry_doFlatCheck cfg st s0 result q0 mo hce, hf]
      obtain ⟨hb1, hf1⟩ := ih s0 s1 q0 q1 hflat0 hf0 hok
      exact ⟨by rw [hb1, hb0], hf1⟩

/-- The labels of `beautify` depend on the state through the bad-bin list
only. -/
theorem beautify_labels_congr (cfg : Config) (st st1 : State) (mo : MonitorObject)
    (q : Quality) (hbad : st.vListErrorIdBad = st1.vListErrorIdBad) :
    (beautify cfg st mo q).2 = (beautify cfg st1 mo q).2 := by
  unfold beautify
  by_cases hn : (isLinkErrorPlots mo.name || isChipErrorPlots mo.name) = true
  · cases hobj : mo.object with
    | none => simp [hn]
    | some h => simp [hn, hbad]
  · simp [hn]

/-- C19. In flat-check mode `check` appends nothing to the bad-bin list and
attaches no flag: for every batch the list after the call is the list before
it and the verdict returned has no flag. So `beautify` renders after the call
the labels it would have rendered before it, and with a list empty before the
call a recognized series gets the status banner and the shifter note but no
per-bin label, also when the flat scan gave Bad. The call returns when the
castable link-error series and the snapshot have the same number of bins. -/
theorem C19_flat_mode_no_records (cfg : Config) (st : State) (moMap : List MonitorObject)
    (hflat : st.doFlatCheck = true ∨ cfg.vDecErrorLimits.length ≠ cfg.NErrorsDefined) :
    (∀ (st1 : State) (q : Quality), check cfg st moMap = .ok (st1, q) →
      st1.vListErrorIdBad = st.vListErrorIdBad ∧ q.flags = [] ∧
      (∀ (mo : MonitorObject) (q1 : Quality),
        (beautify cfg st1 mo q1).2 = (beautify cfg st mo q1).2) ∧
      (st.vListErrorIdBad = [] →
        ∀ (name : String) (h : TH1D), isRecognized name = true →
          (beautify cfg st1 ⟨name, some h⟩ q).2 = [statusBanner q] ++ shifterNote cfg name)) ∧
    (∀ n : Nat,
      (∀ mo ∈ moMap, ∀ h, isLinkErrorPlots mo.name = true → mo.object = some h →
        h.length = n) →
      (st.nCycleLink = 0 ∨ ∃ p, st.LinkErrorBuffer = some p ∧ p.length = n) →
      ∃ st1 q, check cfg st moMap = .ok (st1, q)) := by
  have hflat1 : (checkInit cfg st).doFlatCheck = true := by
    rcases hflat with h | h
    · simp [checkInit, h]
    · simp [checkInit, h]
  constructor
  · intro st1 q hok
    obtain ⟨hb, hfl⟩ := checkLoop_flat_records cfg moMap (checkInit cfg st) st1
      Quality.Null q hflat1 rfl hok
    have hb1 : st1.vListErrorIdBad = st.vListErrorIdBad := hb
    refine ⟨hb1, hfl, ?_, ?_⟩
    · intro mo q1
      exact beautify_labels_congr cfg st1 st mo q1 hb1
    · intro hempty name h hrec
      rw [beautify_castable cfg st1 name h q hrec, hb1, hempty]
      have hnil : perBinLabels cfg [] q = [] := by
        unfold perBinLabels
        split
        · rfl
        · split <;> rfl
      rw [hnil, List.nil_append]
  · intro n hbins hprior
    exact checkLoop_ok cfg n moMap (checkInit cfg st) Quality.Null hbins hprior
      (Or.inl hflat1)

/-- C19 with two limits for three error kinds and the series `[500, 0, 0]`
against the snapshot `[0, 0, 0]`: the flat scan gives Bad, no bin is listed,
no flag is attached, and `beautify` renders the Bad banner alone. -/
theorem C19_flat_mode_no_records_witness :
    (⟨1, 2, true, some [500, 0, 0], [], []⟩ : State).vListErrorIdBad =
        stFlat.vListErrorIdBad ∧
      Quality.Bad.flags = [] ∧
      (∀ (mo : MonitorObject) (q1 : Quality),
        (beautify cfgShort ⟨1, 2, true, some [500, 0, 0], [], []⟩ mo q1).2 =
          (beautify cfgShort stFlat mo q1).2) ∧
      (stFlat.vListErrorIdBad = [] →
        ∀ (name : String) (h : TH1D), isRecognized name = true →
          (beautify cfgShort ⟨1, 2, true, some [500, 0, 0], [], []⟩ ⟨name, some h⟩
              Quality.Bad).2 =
            [statusBanner Quality.Bad] ++ shifterNote cfgShort name) :=
  (C19_flat_mode_no_records cfgShort stFlat
      [⟨"General/LinkErrorPlots", some [500, 0, 0]⟩] (Or.inr (by decide))).1
    ⟨1, 2, true, some [500, 0, 0], [], []⟩ Quality.Bad rfl

end ITSDecodingErrorCheck
